import Mathlib

/-!
Verification of the boba-lang pipeline (lexer, parser, type checker, tree-walking
evaluator) against its natural-language specification.  The Rust sources are
translated into a shallow embedding: Rust `HashMap`s become association lists,
`i64` becomes `Int` with explicit range handling where the code checks or
saturates, `f64` becomes `Rat` (every finite double is a rational; only the
operations the code performs on floats — exact storage, truncating casts,
decimal printing — are modelled), and the possibly non-terminating evaluator and
parser take a fuel argument (`none` = out of fuel, never produced on the
concrete runs proved below).
-/

namespace Boba

/-- Type descriptors, mirroring `enum Type` in src/types.rs (named `Ty` here
because `Type` is reserved in Lean). -/
inductive Ty where
  | Int
  | Float
  | String
  | Bool
  | Null
  | List (elem : Ty)
  | Map (key : Ty) (value : Ty)
  | Function (params : List Ty) (returns : List Ty)
  | Any

/-- Binary operators, mirroring `enum BinaryOperator` in src/ast.rs. -/
inductive BinaryOperator where
  | Add
  | Subtract
  | Multiply
  | Divide
  | Modulo
  | Equal
  | NotEqual
  | LessThan
  | LessThanOrEqual
  | GreaterThan
  | GreaterThanOrEqual
  | And
  | Or

/-- Unary operators, mirroring `enum UnaryOperator` in src/ast.rs. -/
inductive UnaryOperator where
  | Negate
  | Not
  | AddressOf

/-- AST nodes, mirroring `enum Expr` in src/ast.rs.  `f64` literals are
modelled as exact rationals. -/
inductive Expr where
  | IntLiteral (n : Int)
  | FloatLiteral (q : Rat)
  | StringLiteral (s : String)
  | BoolLiteral (b : Bool)
  | NullLiteral
  | List (items : List Expr)
  | Map (entries : List (Expr × Expr))
  | Identifier (name : String)
  | VarDeclaration (name : String) (value : Expr)
  | BinaryOp (left : Expr) (operator : BinaryOperator) (right : Expr)
  | UnaryOp (operator : UnaryOperator) (expr : Expr)
  | If (condition : Expr) (then_branch : List Expr)
      (else_if_branches : List (Expr × List Expr)) (else_branch : Option (List Expr))
  | Loop (init : Option Expr) (condition : Option Expr) (update : Option Expr)
      (body : List Expr)
  | Continue
  | Break
  | Return (values : List Expr)
  | FunctionDeclaration (name : String) (params : List (String × Ty))
      (return_types : List Ty) (body : List Expr)
  | FunctionCall (name : String) (args : List Expr)
  | Output (args : List Expr)
  | OutputFormatted (fmt : Expr)
  | OutputAddress (e : Expr)
  | Input (e : Expr)
  | InputFormatted (e : Expr)
  | TypeConversion (expr : Expr) (target_type : Ty)
  | TypeCheck (expr : Expr) (check_type : Ty) (is_negated : Bool)

/-- A function definition, mirroring `struct FunctionDef` in src/ast.rs. -/
structure FunctionDef where
  name : String
  params : List (String × Ty)
  return_types : List Ty
  body : List Expr

/-- The parse result, mirroring `struct Program` in src/ast.rs.  The Rust
`HashMap<String, FunctionDef>` is modelled as an association list with unique
keys (the parser inserts with overwrite semantics, so keys stay unique). -/
structure Program where
  functions : List (String × FunctionDef)
  main_block : List Expr

/-- Runtime values, mirroring `enum Value` in src/types.rs. -/
inductive Value where
  | Int (n : Int)
  | Float (q : Rat)
  | String (s : String)
  | Bool (b : Bool)
  | Null
  | List (items : List Value)
  | Map (entries : List (Value × Value))
  | Function (name : String) (params : List (String × Ty))
      (return_types : List Ty) (body : List Expr)

/-- Association-list lookup, modelling `HashMap::get`. -/
def lookupAssoc {α : Type} : List (String × α) → String → Option α
  | [], _ => none
  | (k', v') :: t, k => if k' = k then some v' else lookupAssoc t k

/-- Association-list insert with overwrite, modelling `HashMap::insert`. -/
def insertAssoc {α : Type} : List (String × α) → String → α → List (String × α)
  | [], k, v => [(k, v)]
  | (k', v') :: t, k, v => if k' = k then (k, v) :: t else (k', v') :: insertAssoc t k v

/-- A lexical scope, mirroring `struct Environment` in src/interpreter.rs.
The Rust field `variables` is named `vars` here because `variables` is a
reserved token in Lean 4. -/
structure Environment where
  vars : List (String × Value)
  functions : List (String × Value)

/-- Translation of `Environment::new`. -/
def Environment.new : Environment := { vars := [], functions := [] }

/-- Translation of `Environment::define`. -/
def Environment.define (env : Environment) (name : String) (value : Value) : Environment :=
  { env with vars := insertAssoc env.vars name value }

/-- Translation of `Environment::get`. -/
def Environment.get (env : Environment) (name : String) : Option Value :=
  lookupAssoc env.vars name

/-- Translation of `Environment::define_function`. -/
def Environment.define_function (env : Environment) (name : String) (value : Value) :
    Environment :=
  { env with functions := insertAssoc env.functions name value }

/-- Translation of `Environment::get_function`. -/
def Environment.get_function (env : Environment) (name : String) : Option Value :=
  lookupAssoc env.functions name

/-! ## Numeric and string helpers

`i64` range, the `f64 as i64` saturating cast, `i64::from_str`, `f64` decimal
parsing and printing.  `f64` is modelled as `Rat`; the cast and parses are
exact, and printing is an exact decimal expansion (the shortest-round-trip
formatting of Rust's `Display`/`Debug` is abstracted; no claim depends on it).
-/

/-- Smallest `i64` value. -/
def i64_min : Int := -(2 ^ 63)

/-- Largest `i64` value. -/
def i64_max : Int := 2 ^ 63 - 1

/-- Truncation of a rational toward zero, the rounding used by Rust's
`f64 as i64` cast. -/
def rat_trunc (q : Rat) : Int := if 0 ≤ q then ⌊q⌋ else ⌈q⌉

/-- The `n as i64` cast on a finite `f64` (modelled as `Rat`): truncate toward
zero, saturating at the `i64` bounds.  (`NaN`, which casts to 0, has no
counterpart in the rational model.) -/
def f64_as_i64 (q : Rat) : Int :=
  if rat_trunc q < i64_min then i64_min
  else if i64_max < rat_trunc q then i64_max
  else rat_trunc q

/-- Numeric value of a digit string. -/
def digits_val (ds : List Char) : Nat :=
  ds.foldl (fun acc c => acc * 10 + (c.toNat - 48)) 0

/-- Rust `str::parse::<i64>`: an optional single sign, then one or more ASCII
digits, and the value must fit in `i64`. -/
def parse_i64 (s : String) : Option Int :=
  let p : Int × List Char :=
    match s.data with
    | '+' :: t => (1, t)
    | '-' :: t => (-1, t)
    | t => (1, t)
  if p.2.isEmpty then none
  else if p.2.all (fun c => c.isDigit) then
    let v : Int := p.1 * (digits_val p.2 : Int)
    if v < i64_min ∨ i64_max < v then none else some v
  else none

/-- Rust `str::parse::<f64>` on its decimal forms `[sign](d+ | d+.d* | .d+)`,
parsed exactly into `Rat`.  The scientific-notation, `inf` and `NaN` forms of
Rust's grammar are not modelled; no claim depends on them, and the parses the
code performs on literal-shaped strings are exact rather than rounded. -/
def parse_f64 (s : String) : Option Rat :=
  let p : Rat × List Char :=
    match s.data with
    | '+' :: t => (1, t)
    | '-' :: t => (-1, t)
    | t => (1, t)
  let ip := p.2.takeWhile (fun c => c.isDigit)
  let rest := p.2.drop ip.length
  match rest with
  | [] =>
    if ip.isEmpty then none else some (p.1 * (digits_val ip : Rat))
  | '.' :: fr =>
    let fd := fr.takeWhile (fun c => c.isDigit)
    if ¬(fr.drop fd.length).isEmpty then none
    else if ip.isEmpty ∧ fd.isEmpty then none
    else some (p.1 * ((digits_val ip : Rat) + (digits_val fd : Rat) / (10 ^ fd.length : Rat)))
  | _ => none

/-- Fractional decimal digits of `r / d` (with `r < d`), up to `fuel` digits. -/
def frac_digits : Nat → Nat → Nat → String
  | _, _, 0 => ""
  | r, d, fuel + 1 =>
    let r10 := r * 10
    let digit := r10 / d
    let r' := r10 % d
    String.singleton (Char.ofNat (48 + digit)) ++ (if r' = 0 then "" else frac_digits r' d fuel)

/-- Rust `Display` for `f64` (used by `to_string` and `print!`), modelled as an
exact decimal expansion, without a fractional part when the value is integral
(Rust prints `2` for `2.0_f64`). -/
def float_to_string (q : Rat) : String :=
  let sign := if q < 0 then "-" else ""
  let n := q.num.natAbs
  let d := q.den
  if n % d = 0 then sign ++ toString (n / d)
  else sign ++ toString (n / d) ++ "." ++ frac_digits (n % d) d 17

/-- Rust `Debug` for `f64`: like `Display` but always with a fractional part
(Rust prints `2.0` for `2.0_f64`). -/
def repr_float (q : Rat) : String :=
  let sign := if q < 0 then "-" else ""
  let n := q.num.natAbs
  let d := q.den
  if n % d = 0 then sign ++ toString (n / d) ++ ".0"
  else sign ++ toString (n / d) ++ "." ++ frac_digits (n % d) d 17

/-- Rust `Debug` escaping for one character inside a string literal (the
common ASCII cases of `char::escape_debug`). -/
def escape_debug_char (c : Char) : String :=
  if c = '"' then "\\\""
  else if c = '\\' then "\\\\"
  else if c = '\n' then "\\n"
  else if c = '\r' then "\\r"
  else if c = '\t' then "\\t"
  else String.singleton c

/-- Rust `Debug` for `String`: double quotes around the escaped characters. -/
def repr_string (s : String) : String :=
  "\"" ++ String.join (s.data.map escape_debug_char) ++ "\""

/-! ## Rust `Debug` renderings

The checker, parser and evaluator put `{:?}` renderings of types, values,
expressions and tokens into their diagnostic strings, so the derived `Debug`
format is reproduced here. -/

/-- Rust `Debug` for `BinaryOperator`. -/
def repr_binary_operator : BinaryOperator → String
  | .Add => "Add"
  | .Subtract => "Subtract"
  | .Multiply => "Multiply"
  | .Divide => "Divide"
  | .Modulo => "Modulo"
  | .Equal => "Equal"
  | .NotEqual => "NotEqual"
  | .LessThan => "LessThan"
  | .LessThanOrEqual => "LessThanOrEqual"
  | .GreaterThan => "GreaterThan"
  | .GreaterThanOrEqual => "GreaterThanOrEqual"
  | .And => "And"
  | .Or => "Or"

/-- Rust `Debug` for `UnaryOperator`. -/
def repr_unary_operator : UnaryOperator → String
  | .Negate => "Negate"
  | .Not => "Not"
  | .AddressOf => "AddressOf"

mutual

/-- Rust `Debug` for `Type`. -/
def repr_ty : Ty → String
  | .Int => "Int"
  | .Float => "Float"
  | .String => "String"
  | .Bool => "Bool"
  | .Null => "Null"
  | .List t => "List(" ++ repr_ty t ++ ")"
  | .Map k v => "Map(" ++ repr_ty k ++ ", " ++ repr_ty v ++ ")"
  | .Function ps rs =>
    "Function \x7b params: [" ++ repr_ty_items ps ++ "], returns: [" ++
      repr_ty_items rs ++ "] \x7d"
  | .Any => "Any"

/-- Comma-separated `Debug` renderings of a list of types. -/
def repr_ty_items : List Ty → String
  | [] => ""
  | [t] => repr_ty t
  | t :: rest => repr_ty t ++ ", " ++ repr_ty_items rest

end

/-- Rust `Debug` for a `(String, Type)` parameter pair. -/
def repr_param (p : String × Ty) : String :=
  "(" ++ repr_string p.1 ++ ", " ++ repr_ty p.2 ++ ")"

/-- Comma-separated `Debug` renderings of a parameter list. -/
def repr_params : List (String × Ty) → String
  | [] => ""
  | [p] => repr_param p
  | p :: rest => repr_param p ++ ", " ++ repr_params rest

mutual

/-- Rust `Debug` for `Expr` (derived formatting, non-alternate). -/
def repr_expr : Expr → String
  | .IntLiteral n => "IntLiteral(" ++ toString n ++ ")"
  | .FloatLiteral q => "FloatLiteral(" ++ repr_float q ++ ")"
  | .StringLiteral s => "StringLiteral(" ++ repr_string s ++ ")"
  | .BoolLiteral b => "BoolLiteral(" ++ (if b then "true" else "false") ++ ")"
  | .NullLiteral => "NullLiteral"
  | .List items => "List([" ++ repr_expr_items items ++ "])"
  | .Map entries => "Map([" ++ repr_expr_pairs entries ++ "])"
  | .Identifier name => "Identifier(" ++ repr_string name ++ ")"
  | .VarDeclaration name value =>
    "VarDeclaration(" ++ repr_string name ++ ", " ++ repr_expr value ++ ")"
  | .BinaryOp left op right =>
    "BinaryOp \x7b left: " ++ repr_expr left ++ ", operator: " ++
      repr_binary_operator op ++ ", right: " ++ repr_expr right ++ " \x7d"
  | .UnaryOp op e =>
    "UnaryOp \x7b operator: " ++ repr_unary_operator op ++ ", expr: " ++
      repr_expr e ++ " \x7d"
  | .If c tb elifs eb =>
    "If \x7b condition: " ++ repr_expr c ++ ", then_branch: [" ++
      repr_expr_items tb ++ "], else_if_branches: [" ++ repr_elifs elifs ++
      "], else_branch: " ++
      (match eb with
       | none => "None"
       | some l => "Some([" ++ repr_expr_items l ++ "])") ++ " \x7d"
  | .Loop init cond update body =>
    "Loop \x7b init: " ++ repr_opt_expr init ++ ", condition: " ++
      repr_opt_expr cond ++ ", update: " ++ repr_opt_expr update ++
      ", body: [" ++ repr_expr_items body ++ "] \x7d"
  | .Continue => "Continue"
  | .Break => "Break"
  | .Return values => "Return([" ++ repr_expr_items values ++ "])"
  | .FunctionDeclaration name params return_types body =>
    "FunctionDeclaration \x7b name: " ++ repr_string name ++ ", params: [" ++
      repr_params params ++ "], return_types: [" ++ repr_ty_items return_types ++
      "], body: [" ++ repr_expr_items body ++ "] \x7d"
  | .FunctionCall name args =>
    "FunctionCall \x7b name: " ++ repr_string name ++ ", args: [" ++
      repr_expr_items args ++ "] \x7d"
  | .Output args => "Output([" ++ repr_expr_items args ++ "])"
  | .OutputFormatted fmt => "OutputFormatted(" ++ repr_expr fmt ++ ")"
  | .OutputAddress e => "OutputAddress(" ++ repr_expr e ++ ")"
  | .Input e => "Input(" ++ repr_expr e ++ ")"
  | .InputFormatted e => "InputFormatted(" ++ repr_expr e ++ ")"
  | .TypeConversion e t =>
    "TypeConversion \x7b expr: " ++ repr_expr e ++ ", target_type: " ++
      repr_ty t ++ " \x7d"
  | .TypeCheck e t neg =>
    "TypeCheck \x7b expr: " ++ repr_expr e ++ ", check_type: " ++ repr_ty t ++
      ", is_negated: " ++ (if neg then "true" else "false") ++ " \x7d"

/-- Comma-separated `Debug` renderings of a list of expressions. -/
def repr_expr_items : List Expr → String
  | [] => ""
  | [e] => repr_expr e
  | e :: rest => repr_expr e ++ ", " ++ repr_expr_items rest

/-- Comma-separated `Debug` renderings of `(Expr, Expr)` pairs. -/
def repr_expr_pairs : List (Expr × Expr) → String
  | [] => ""
  | [(a, b)] => "(" ++ repr_expr a ++ ", " ++ repr_expr b ++ ")"
  | (a, b) :: rest =>
    "(" ++ repr_expr a ++ ", " ++ repr_expr b ++ "), " ++ repr_expr_pairs rest

/-- Comma-separated `Debug` renderings of `(Expr, Vec<Expr>)` else-if arms. -/
def repr_elifs : List (Expr × List Expr) → String
  | [] => ""
  | [(c, b)] => "(" ++ repr_expr c ++ ", [" ++ repr_expr_items b ++ "])"
  | (c, b) :: rest =>
    "(" ++ repr_expr c ++ ", [" ++ repr_expr_items b ++ "]), " ++ repr_elifs rest

/-- Rust `Debug` for `Option<Box<Expr>>`. -/
def repr_opt_expr : Option Expr → String
  | none => "None"
  | some e => "Some(" ++ repr_expr e ++ ")"

end

mutual

/-- Rust `Debug` for `Value`. -/
def repr_value : Value → String
  | .Int n => "Int(" ++ toString n ++ ")"
  | .Float q => "Float(" ++ repr_float q ++ ")"
  | .String s => "String(" ++ repr_string s ++ ")"
  | .Bool b => "Bool(" ++ (if b then "true" else "false") ++ ")"
  | .Null => "Null"
  | .List items => "List([" ++ repr_value_items items ++ "])"
  | .Map entries => "Map([" ++ repr_value_pairs entries ++ "])"
  | .Function name params return_types body =>
    "Function \x7b name: " ++ repr_string name ++ ", params: [" ++
      repr_params params ++ "], return_types: [" ++ repr_ty_items return_types ++
      "], body: [" ++ repr_expr_items body ++ "] \x7d"

/-- Comma-separated `Debug` renderings of a list of values. -/
def repr_value_items : List Value → String
  | [] => ""
  | [v] => repr_value v
  | v :: rest => repr_value v ++ ", " ++ repr_value_items rest

/-- Comma-separated `Debug` renderings of `(Value, Value)` pairs. -/
def repr_value_pairs : List (Value × Value) → String
  | [] => ""
  | [(a, b)] => "(" ++ repr_value a ++ ", " ++ repr_value b ++ ")"
  | (a, b) :: rest =>
    "(" ++ repr_value a ++ ", " ++ repr_value b ++ "), " ++ repr_value_pairs rest

end


/-! ## Lexer (src/lexer.rs)

The lexer is `logos`-derived: at each position every rule is tried, the
longest match wins, and equal-length matches are resolved by rule priority.
Priorities below reproduce `logos`'s derived ones in the only families where a
tie can occur: a keyword/operator literal (priority 2 x length) beats the
identifier regex, and the `###[^#]*###` block-comment rule (six literal bytes)
beats the `#[^\n]*` line-comment rule (one literal byte).  Spans are Rust byte
ranges, modelled as character indices (identical on ASCII sources).
-/

/-- Token kinds, mirroring `enum Token` in src/lexer.rs.  The `Comment`,
`MultilineComment` and `Whitespace` rules are `logos::skip` rules and never
reach the output; `Error` mirrors the declared error variant. -/
inductive Token where
  | Fun
  | If
  | ElseIf
  | Else
  | Loop
  | Till
  | Continue
  | Break
  | Return
  | Is
  | NotKeyword
  | True
  | False
  | Null
  | Output
  | OutputF
  | OutputAddr
  | Input
  | InputF
  | IntType
  | FloatType
  | StringType
  | BoolType
  | IntLiteral (n : Int)
  | FloatLiteral (q : Rat)
  | StringLiteral (s : String)
  | Identifier (s : String)
  | Plus
  | Minus
  | Star
  | Slash
  | Percent
  | Equals
  | DoubleEquals
  | NotEquals
  | LessThan
  | LessThanEquals
  | GreaterThan
  | GreaterThanEquals
  | And
  | Or
  | Not
  | Dot
  | Ellipsis
  | LParen
  | RParen
  | LBrace
  | RBrace
  | LBracket
  | RBracket
  | Colon
  | Comma
  | Semicolon
  | Comment
  | MultilineComment
  | Whitespace
  | Error

/-- A token paired with its source span, mirroring `struct TokenWithSpan`
(the Rust `Range<usize>` is the pair (start, end)). -/
structure TokenWithSpan where
  token : Token
  span : Nat × Nat

/-- Length of the longest prefix whose characters all satisfy `p`. -/
def take_while_len (p : Char → Bool) : List Char → Nat
  | [] => 0
  | c :: t => if p c then take_while_len p t + 1 else 0

/-- Longest match of a literal `#[token("...")]` rule. -/
def match_literal (lit : List Char) (s : List Char) : Option Nat :=
  if lit.isPrefixOf s then some lit.length else none

/-- Longest match of the integer-literal regex `-?[0-9]+`. -/
def match_int : List Char → Option Nat
  | '-' :: t =>
    let n := take_while_len Char.isDigit t
    if n = 0 then none else some (n + 1)
  | t =>
    let n := take_while_len Char.isDigit t
    if n = 0 then none else some n

/-- Longest match of the float-literal regex `-?[0-9]+\.[0-9]+`. -/
def match_float (s : List Char) : Option Nat :=
  let p : Nat × List Char :=
    match s with
    | '-' :: t => (1, t)
    | t => (0, t)
  let d1 := take_while_len Char.isDigit p.2
  if d1 = 0 then none
  else
    match p.2.drop d1 with
    | '.' :: t2 =>
      let d2 := take_while_len Char.isDigit t2
      if d2 = 0 then none else some (p.1 + d1 + 1 + d2)
    | _ => none

/-- Length from just after an opening quote to the closing quote of the
string-literal regex body `([^"\\]|\\.)*"`, counting the closing quote. -/
def string_body_len : List Char → Option Nat
  | [] => none
  | '"' :: _ => some 1
  | '\\' :: [] => none
  | '\\' :: _ :: t => (string_body_len t).map (· + 2)
  | _ :: t => (string_body_len t).map (· + 1)

/-- Longest match of the string-literal regex `"([^"\\]|\\.)*"`. -/
def match_string_lit : List Char → Option Nat
  | '"' :: t => (string_body_len t).map (· + 1)
  | _ => none

/-- Identifier start: `[a-zA-Z_]`. -/
def is_ident_start (c : Char) : Bool := c.isAlpha || c = '_'

/-- Identifier continuation: `[a-zA-Z0-9_]`. -/
def is_ident_cont (c : Char) : Bool := c.isAlphanum || c = '_'

/-- Longest match of the identifier regex `[a-zA-Z_][a-zA-Z0-9_]*`. -/
def match_identifier : List Char → Option Nat
  | [] => none
  | c :: t => if is_ident_start c then some (1 + take_while_len is_ident_cont t) else none

/-- Longest match of the line-comment regex `#[^\n]*`. -/
def match_comment : List Char → Option Nat
  | '#' :: t => some (1 + take_while_len (fun c => c != '\n') t)
  | _ => none

/-- Longest match of the block-comment regex `###[^#]*###`: after the opening
`###` the body may not contain `#`, and the greedy `[^#]*` run followed by a
`###` check computes exactly the regex's longest match. -/
def match_multiline : List Char → Option Nat
  | '#' :: '#' :: '#' :: t =>
    let n := take_while_len (fun c => c != '#') t
    if List.isPrefixOf ['#', '#', '#'] (t.drop n) then some (6 + n) else none
  | _ => none

/-- The whitespace characters of the regex `[ \t\n\r]+`. -/
def is_lex_whitespace (c : Char) : Bool := c = ' ' || c = '\t' || c = '\n' || c = '\r'

/-- Longest match of the whitespace regex `[ \t\n\r]+`. -/
def match_whitespace (s : List Char) : Option Nat :=
  let n := take_while_len is_lex_whitespace s
  if n = 0 then none else some n

/-- One lexer rule: its longest-match function, its priority, and its action —
`none` for `logos::skip`, or a token builder from the matched slice (the
builder returning `none` models a callback failure such as `i64` overflow,
which logos turns into a lexing error). -/
structure LexRule where
  matchLen : List Char → Option Nat
  prio : Nat
  action : Option (List Char → Option Token)

/-- A `#[token("...")]` rule: literal match, priority 2 x length. -/
def lit_rule (lit : String) (tok : Token) : LexRule :=
  { matchLen := match_literal lit.data, prio := 2 * lit.length,
    action := some (fun _ => some tok) }

/-- The integer-literal callback `lex.slice().parse::<i64>().ok()`. -/
def int_action (slice : List Char) : Option Token :=
  (parse_i64 (String.mk slice)).map Token.IntLiteral

/-- The float-literal callback `lex.slice().parse::<f64>().ok()`. -/
def float_action (slice : List Char) : Option Token :=
  (parse_f64 (String.mk slice)).map Token.FloatLiteral

/-- The string-literal callback: strip the surrounding quotes, keeping escape
sequences verbatim. -/
def string_action (slice : List Char) : Option Token :=
  some (Token.StringLiteral (String.mk ((slice.drop 1).dropLast)))

/-- The identifier callback `lex.slice().to_string()`. -/
def ident_action (slice : List Char) : Option Token :=
  some (Token.Identifier (String.mk slice))

/-- The full rule set of `enum Token`, in source order. -/
def rules : List LexRule :=
  [ lit_rule "fun" .Fun,
    lit_rule "if" .If,
    lit_rule "elseif" .ElseIf,
    lit_rule "else" .Else,
    lit_rule "loop" .Loop,
    lit_rule "till" .Till,
    lit_rule "continue" .Continue,
    lit_rule "break" .Break,
    lit_rule "return" .Return,
    lit_rule "is" .Is,
    lit_rule "not" .NotKeyword,
    lit_rule "true" .True,
    lit_rule "false" .False,
    lit_rule "null" .Null,
    lit_rule "output" .Output,
    lit_rule "outputf" .OutputF,
    lit_rule "output&" .OutputAddr,
    lit_rule "input" .Input,
    lit_rule "inputf" .InputF,
    lit_rule "int" .IntType,
    lit_rule "float" .FloatType,
    lit_rule "string" .StringType,
    lit_rule "bool" .BoolType,
    { matchLen := match_int, prio := 3, action := some int_action },
    { matchLen := match_float, prio := 6, action := some float_action },
    { matchLen := match_string_lit, prio := 4, action := some string_action },
    { matchLen := match_identifier, prio := 2, action := some ident_action },
    lit_rule "+" .Plus,
    lit_rule "-" .Minus,
    lit_rule "*" .Star,
    lit_rule "/" .Slash,
    lit_rule "%" .Percent,
    lit_rule "=" .Equals,
    lit_rule "==" .DoubleEquals,
    lit_rule "!=" .NotEquals,
    lit_rule "<" .LessThan,
    lit_rule "<=" .LessThanEquals,
    lit_rule ">" .GreaterThan,
    lit_rule ">=" .GreaterThanEquals,
    lit_rule "&&" .And,
    lit_rule "||" .Or,
    lit_rule "!" .Not,
    lit_rule "." .Dot,
    lit_rule "..." .Ellipsis,
    lit_rule "(" .LParen,
    lit_rule ")" .RParen,
    lit_rule "\x7b" .LBrace,
    lit_rule "\x7d" .RBrace,
    lit_rule "[" .LBracket,
    lit_rule "]" .RBracket,
    lit_rule ":" .Colon,
    lit_rule "," .Comma,
    lit_rule ";" .Semicolon,
    { matchLen := match_comment, prio := 2, action := none },
    { matchLen := match_multiline, prio := 12, action := none },
    { matchLen := match_whitespace, prio := 1, action := none } ]

/-- One step of longest-match selection: keep the better of the current best
match and rule `r`, preferring the longer match and, on equal length, the
higher priority (`logos` semantics). -/
def pick_step (s : List Char) (best : Option (Nat × LexRule)) (r : LexRule) :
    Option (Nat × LexRule) :=
  match r.matchLen s with
  | none => best
  | some n =>
    match best with
    | none => some (n, r)
    | some (bn, br) =>
      if bn < n ∨ (n = bn ∧ br.prio < r.prio) then some (n, r) else best

/-- Longest-match selection over all rules, ties resolved by priority
(`logos` semantics). -/
def pick (s : List Char) : Option (Nat × LexRule) :=
  rules.foldl (pick_step s) none

/-- Translation of `get_line_info` from src/lexer.rs: 1-based line and column of a position. -/
def get_line_info_go : List Char → Nat → Nat → Nat → Nat → Nat × Nat
  | [], _, _, line, col => (line, col)
  | c :: t, i, pos, line, col =>
    if pos ≤ i then (line, col)
    else if c = '\n' then get_line_info_go t (i + 1) pos (line + 1) 1
    else get_line_info_go t (i + 1) pos line (col + 1)

/-- The 1-based line/column of `pos` in `src` (`get_line_info` in src/lexer.rs). -/
def get_line_info (src : List Char) (pos : Nat) : Nat × Nat :=
  get_line_info_go src 0 pos 1 1

/-- One lexing error message, as formatted by `tokenize` in src/lexer.rs.  The
offending span logos reports is modelled by the slice passed in. -/
def lex_error_message (src : List Char) (pos : Nat) (slice : List Char) : String :=
  "Lexical error at line " ++ toString (get_line_info src pos).1 ++ ", column " ++
    toString (get_line_info src pos).2 ++ ": invalid token '" ++ String.mk slice ++ "'"

/-- The scanning loop of `tokenize`: repeatedly take the longest match at the
current position, skipping comment/whitespace rules and accumulating the other
tokens with their spans; fail on the first position no rule matches.  Fuel
only guards Lean totality: every rule consumes at least one character, so the
initial fuel `source.length + 1` is never exhausted. -/
def tokenize_loop : Nat → List Char → Nat → List Char → List TokenWithSpan →
    Option (Except String (List TokenWithSpan))
  | 0, _, _, _, _ => none
  | fuel + 1, src, pos, rest, acc =>
    match rest with
    | [] => some (.ok acc)
    | _ :: _ =>
      match pick rest with
      | none => some (.error (lex_error_message src pos (rest.take 1)))
      | some (n, r) =>
        match r.action with
        | none => tokenize_loop fuel src (pos + n) (rest.drop n) acc
        | some mk =>
          match mk (rest.take n) with
          | some tok =>
            tokenize_loop fuel src (pos + n) (rest.drop n)
              (acc ++ [{ token := tok, span := (pos, pos + n) }])
          | none => some (.error (lex_error_message src pos (rest.take n)))

/-- Translation of `tokenize` from src/lexer.rs. -/
def tokenize (source : String) : Option (Except String (List TokenWithSpan)) :=
  tokenize_loop (source.data.length + 1) source.data 0 source.data []


/-! ## Parser (src/parser.rs)

Recursive descent over the token sequence.  The `Parser` struct's index is
carried as explicit state; the recursion is fuelled (each Rust call level
consumes at least one token, so the generous initial fuel in `parse` is never
exhausted; `none` = out of fuel). -/

/-- Parser state, mirroring `struct Parser` in src/parser.rs. -/
structure ParserS where
  tokens : List TokenWithSpan
  current : Nat

/-- Translation of `Parser::is_at_end`. -/
def ParserS.is_at_end (p : ParserS) : Bool := p.tokens.length ≤ p.current

/-- Translation of `Parser::current_token_type`. -/
def ParserS.current_token_type (p : ParserS) : Option Token :=
  (p.tokens.get? p.current).map (fun t => t.token)

/-- Translation of `Parser::advance`: bump the index unless at the end, returning the token
just passed. -/
def ParserS.advance (p : ParserS) : Option Token × ParserS :=
  let p' := if p.is_at_end then p else { p with current := p.current + 1 }
  ((p'.tokens.get? (p'.current - 1)).map (fun t => t.token), p')

/-- Translation of `std::mem::discriminant` on `Token`: the constructor index. -/
def token_discriminant : Token → Nat
  | .Fun => 0
  | .If => 1
  | .ElseIf => 2
  | .Else => 3
  | .Loop => 4
  | .Till => 5
  | .Continue => 6
  | .Break => 7
  | .Return => 8
  | .Is => 9
  | .NotKeyword => 10
  | .True => 11
  | .False => 12
  | .Null => 13
  | .Output => 14
  | .OutputF => 15
  | .OutputAddr => 16
  | .Input => 17
  | .InputF => 18
  | .IntType => 19
  | .FloatType => 20
  | .StringType => 21
  | .BoolType => 22
  | .IntLiteral _ => 23
  | .FloatLiteral _ => 24
  | .StringLiteral _ => 25
  | .Identifier _ => 26
  | .Plus => 27
  | .Minus => 28
  | .Star => 29
  | .Slash => 30
  | .Percent => 31
  | .Equals => 32
  | .DoubleEquals => 33
  | .NotEquals => 34
  | .LessThan => 35
  | .LessThanEquals => 36
  | .GreaterThan => 37
  | .GreaterThanEquals => 38
  | .And => 39
  | .Or => 40
  | .Not => 41
  | .Dot => 42
  | .Ellipsis => 43
  | .LParen => 44
  | .RParen => 45
  | .LBrace => 46
  | .RBrace => 47
  | .LBracket => 48
  | .RBracket => 49
  | .Colon => 50
  | .Comma => 51
  | .Semicolon => 52
  | .Comment => 53
  | .MultilineComment => 54
  | .Whitespace => 55
  | .Error => 56

/-- Translation of `Parser::check`: payload-carrying kinds compare by kind, everything else by
discriminant. -/
def ParserS.check (p : ParserS) (token_type : Token) : Bool :=
  if p.is_at_end then false
  else
    match p.current_token_type, token_type with
    | some (.Identifier _), .Identifier _ => true
    | some (.IntLiteral _), .IntLiteral _ => true
    | some (.FloatLiteral _), .FloatLiteral _ => true
    | some (.StringLiteral _), .StringLiteral _ => true
    | some a, b => token_discriminant a = token_discriminant b
    | none, _ => false

/-- Translation of `Parser::match_token`: advance past the token if it checks. -/
def ParserS.match_token (p : ParserS) (token_type : Token) : Bool × ParserS :=
  if p.check token_type then (true, (p.advance).2) else (false, p)

/-- Rust `Debug` for `Token`. -/
def repr_token : Token → String
  | .Fun => "Fun"
  | .If => "If"
  | .ElseIf => "ElseIf"
  | .Else => "Else"
  | .Loop => "Loop"
  | .Till => "Till"
  | .Continue => "Continue"
  | .Break => "Break"
  | .Return => "Return"
  | .Is => "Is"
  | .NotKeyword => "NotKeyword"
  | .True => "True"
  | .False => "False"
  | .Null => "Null"
  | .Output => "Output"
  | .OutputF => "OutputF"
  | .OutputAddr => "OutputAddr"
  | .Input => "Input"
  | .InputF => "InputF"
  | .IntType => "IntType"
  | .FloatType => "FloatType"
  | .StringType => "StringType"
  | .BoolType => "BoolType"
  | .IntLiteral n => "IntLiteral(" ++ toString n ++ ")"
  | .FloatLiteral q => "FloatLiteral(" ++ repr_float q ++ ")"
  | .StringLiteral s => "StringLiteral(" ++ repr_string s ++ ")"
  | .Identifier s => "Identifier(" ++ repr_string s ++ ")"
  | .Plus => "Plus"
  | .Minus => "Minus"
  | .Star => "Star"
  | .Slash => "Slash"
  | .Percent => "Percent"
  | .Equals => "Equals"
  | .DoubleEquals => "DoubleEquals"
  | .NotEquals => "NotEquals"
  | .LessThan => "LessThan"
  | .LessThanEquals => "LessThanEquals"
  | .GreaterThan => "GreaterThan"
  | .GreaterThanEquals => "GreaterThanEquals"
  | .And => "And"
  | .Or => "Or"
  | .Not => "Not"
  | .Dot => "Dot"
  | .Ellipsis => "Ellipsis"
  | .LParen => "LParen"
  | .RParen => "RParen"
  | .LBrace => "LBrace"
  | .RBrace => "RBrace"
  | .LBracket => "LBracket"
  | .RBracket => "RBracket"
  | .Colon => "Colon"
  | .Comma => "Comma"
  | .Semicolon => "Semicolon"
  | .Comment => "Comment"
  | .MultilineComment => "MultilineComment"
  | .Whitespace => "Whitespace"
  | .Error => "Error"

/-- Rust `Debug` for `Option<&Token>`. -/
def repr_opt_token : Option Token → String
  | none => "None"
  | some t => "Some(" ++ repr_token t ++ ")"

/-- Translation of `Parser::consume`: advance past an expected token kind or fail with the
formatted message. -/
def ParserS.consume (p : ParserS) (token_type : Token) (error_message : String) :
    Except String ParserS :=
  if p.check token_type then .ok (p.advance).2
  else .error (error_message ++ ": expected " ++ repr_token token_type ++ ", got " ++
    repr_opt_token p.current_token_type)

mutual

/-- Translation of `Parser::parse_expression` (the source comment reads "Simplified
parse_expression for now"): only literals, type conversions, identifiers
(declaration / call / reference), `output`, `outputf` and `return` are
handled; every other token falls into the final error arm. -/
def parse_expression : Nat → ParserS → Option (Except String (Expr × ParserS))
  | 0, _ => none
  | fuel + 1, p =>
    match p.current_token_type with
    | some (.IntLiteral n) => some (.ok (.IntLiteral n, (p.advance).2))
    | some (.FloatLiteral q) => some (.ok (.FloatLiteral q, (p.advance).2))
    | some (.StringLiteral s) => some (.ok (.StringLiteral s, (p.advance).2))
    | some .True => some (.ok (.BoolLiteral true, (p.advance).2))
    | some .False => some (.ok (.BoolLiteral false, (p.advance).2))
    | some .Null => some (.ok (.NullLiteral, (p.advance).2))
    | some .IntType | some .FloatType | some .StringType | some .BoolType =>
      -- type conversion call: int(x), float(x), string(x), bool(x)
      let type_token := p.current_token_type
      let p := (p.advance).2
      (match p.consume .LParen "Expected '(' after type name" with
       | .error e => some (.error e)
       | .ok p =>
         match parse_expression fuel p with
         | none => none
         | some (.error e) => some (.error e)
         | some (.ok (e, p)) =>
           match p.consume .RParen "Expected ')' after expression" with
           | .error e' => some (.error e')
           | .ok p =>
             let target_type : Ty :=
               match type_token with
               | some .IntType => .Int
               | some .FloatType => .Float
               | some .StringType => .String
               | _ => .Bool
             some (.ok (.TypeConversion e target_type, p)))
    | some (.Identifier name) =>
      let p := (p.advance).2
      let m1 := p.match_token .Equals
      if m1.1 then
        match parse_expression fuel m1.2 with
        | none => none
        | some (.error e) => some (.error e)
        | some (.ok (value, p)) => some (.ok (.VarDeclaration name value, p))
      else
        let m2 := p.match_token .LParen
        if m2.1 then
          let p := m2.2
          match (if p.check .RParen then some (.ok (([] : List Expr), p))
                 else parse_call_args fuel p []) with
          | none => none
          | some (.error e) => some (.error e)
          | some (.ok (args, p)) =>
            match p.consume .RParen "Expected ')' after function arguments" with
            | .error e => some (.error e)
            | .ok p => some (.ok (.FunctionCall name args, p))
        else some (.ok (.Identifier name, p))
    | some .Output =>
      let p := (p.advance).2
      (match p.consume .LParen "Expected '(' after 'output'" with
       | .error e => some (.error e)
       | .ok p =>
         match (if p.check .RParen then some (.ok (([] : List Expr), p))
                else parse_call_args fuel p []) with
         | none => none
         | some (.error e) => some (.error e)
         | some (.ok (args, p)) =>
           match p.consume .RParen "Expected ')' after output arguments" with
           | .error e => some (.error e)
           | .ok p => some (.ok (.Output args, p)))
    | some .OutputF =>
      let p := (p.advance).2
      (match p.consume .LParen "Expected '(' after 'outputf'" with
       | .error e => some (.error e)
       | .ok p =>
         match parse_expression fuel p with
         | none => none
         | some (.error e) => some (.error e)
         | some (.ok (format_string, p)) =>
           match p.consume .RParen "Expected ')' after outputf argument" with
           | .error e => some (.error e)
           | .ok p => some (.ok (.OutputFormatted format_string, p)))
    | some .Return =>
      let p := (p.advance).2
      if ¬ p.check .RBrace ∧ ¬ p.is_at_end then
        match parse_call_args fuel p [] with
        | none => none
        | some (.error e) => some (.error e)
        | some (.ok (values, p)) => some (.ok (.Return values, p))
      else some (.ok (.Return [], p))
    | t => some (.error ("Unexpected token: " ++ repr_opt_token t))

/-- The comma-separated expression loop shared by call arguments, `output`
arguments and `return` values (identical `loop` bodies in the source). -/
def parse_call_args : Nat → ParserS → List Expr → Option (Except String (List Expr × ParserS))
  | 0, _, _ => none
  | fuel + 1, p, acc =>
    match parse_expression fuel p with
    | none => none
    | some (.error e) => some (.error e)
    | some (.ok (arg, p)) =>
      let m := p.match_token .Comma
      if m.1 then parse_call_args fuel m.2 (acc ++ [arg])
      else some (.ok (acc ++ [arg], m.2))

end

mutual

/-- Translation of `Parser::parse_type`. -/
def parse_type : Nat → ParserS → Option (Except String (Ty × ParserS))
  | 0, _ => none
  | fuel + 1, p =>
    match p.current_token_type with
    | some .IntType => some (.ok (.Int, (p.advance).2))
    | some .FloatType => some (.ok (.Float, (p.advance).2))
    | some .StringType => some (.ok (.String, (p.advance).2))
    | some .BoolType => some (.ok (.Bool, (p.advance).2))
    | some .Null => some (.ok (.Null, (p.advance).2))
    | some .LBracket =>
      let p := (p.advance).2
      (match parse_type fuel p with
       | none => none
       | some (.error e) => some (.error e)
       | some (.ok (elem_type, p)) =>
         let m := p.match_token .Colon
         if m.1 then
           match parse_type fuel m.2 with
           | none => none
           | some (.error e) => some (.error e)
           | some (.ok (value_type, p)) =>
             match p.consume .RBracket "Expected ']' after map type" with
             | .error e => some (.error e)
             | .ok p => some (.ok (.Map elem_type value_type, p))
         else
           match m.2.consume .RBracket "Expected ']' after list element type" with
           | .error e => some (.error e)
           | .ok p => some (.ok (.List elem_type, p)))
    | t => some (.error ("Expected type, got " ++ repr_opt_token t))

end

mutual

/-- The parameter-list `loop` of `parse_function_declaration`. -/
def parse_params : Nat → ParserS → List (String × Ty) →
    Option (Except String (List (String × Ty) × ParserS))
  | 0, _, _ => none
  | fuel + 1, p, acc =>
    match p.current_token_type with
    | some (.Identifier param_name) =>
      let p := (p.advance).2
      (match p.consume .Colon "Expected ':' after parameter name" with
       | .error e => some (.error e)
       | .ok p =>
         match parse_type fuel p with
         | none => none
         | some (.error e) => some (.error e)
         | some (.ok (param_type, p)) =>
           let m := p.match_token .Comma
           if m.1 then parse_params fuel m.2 (acc ++ [(param_name, param_type)])
           else some (.ok (acc ++ [(param_name, param_type)], m.2)))
    | _ => some (.error "Expected parameter name")

/-- The return-type-list `loop` of `parse_function_declaration`. -/
def parse_return_types : Nat → ParserS → List Ty → Option (Except String (List Ty × ParserS))
  | 0, _, _ => none
  | fuel + 1, p, acc =>
    match parse_type fuel p with
    | none => none
    | some (.error e) => some (.error e)
    | some (.ok (return_type, p)) =>
      let m := p.match_token .Comma
      if m.1 then parse_return_types fuel m.2 (acc ++ [return_type])
      else some (.ok (acc ++ [return_type], m.2))

end

mutual

/-- The function-body `while` loop of `parse_function_declaration`. -/
def parse_body : Nat → ParserS → List Expr → Option (Except String (List Expr × ParserS))
  | 0, _, _ => none
  | fuel + 1, p, acc =>
    if ¬ p.check .RBrace ∧ ¬ p.is_at_end then
      match parse_expression fuel p with
      | none => none
      | some (.error e) => some (.error e)
      | some (.ok (e, p)) => parse_body fuel p (acc ++ [e])
    else some (.ok (acc, p))

end

/-- Translation of `Parser::parse_function_declaration`. -/
def parse_function_declaration (fuel : Nat) (p : ParserS) :
    Option (Except String (FunctionDef × ParserS)) :=
  match p.current_token_type with
  | some (.Identifier name) =>
    let p := (p.advance).2
    (match p.consume .LParen "Expected '(' after function name" with
     | .error e => some (.error e)
     | .ok p =>
       match (if p.check .RParen then some (.ok (([] : List (String × Ty)), p))
              else parse_params fuel p []) with
       | none => none
       | some (.error e) => some (.error e)
       | some (.ok (params, p)) =>
         match p.consume .RParen "Expected ')' after parameters" with
         | .error e => some (.error e)
         | .ok p =>
           let m := p.match_token .Colon
           match (if m.1 then parse_return_types fuel m.2 []
                  else some (.ok (([] : List Ty), m.2))) with
           | none => none
           | some (.error e) => some (.error e)
           | some (.ok (return_types, p)) =>
             match p.consume .LBrace "Expected '\x7b' before function body" with
             | .error e => some (.error e)
             | .ok p =>
               match parse_body fuel p [] with
               | none => none
               | some (.error e) => some (.error e)
               | some (.ok (body, p)) =>
                 match p.consume .RBrace "Expected '\x7d' after function body" with
                 | .error e => some (.error e)
                 | .ok p =>
                   some (.ok ({ name := name, params := params,
                                return_types := return_types, body := body }, p)))
  | _ => some (.error "Expected function name after 'fun' keyword")

/-- The top-level `while` loop of `Parser::parse_program`. -/
def parse_program : Nat → ParserS → List (String × FunctionDef) → List Expr →
    Option (Except String Program)
  | 0, _, _, _ => none
  | fuel + 1, p, functions, main_block =>
    if p.is_at_end then some (.ok { functions := functions, main_block := main_block })
    else
      let m := p.match_token .Fun
      if m.1 then
        match parse_function_declaration fuel m.2 with
        | none => none
        | some (.error e) => some (.error e)
        | some (.ok (func_def, p)) =>
          parse_program fuel p (insertAssoc functions func_def.name func_def) main_block
      else
        match parse_expression fuel m.2 with
        | none => none
        | some (.error e) => some (.error e)
        | some (.ok (e, p)) => parse_program fuel p functions (main_block ++ [e])

/-- Translation of `parse` from src/parser.rs.  The initial fuel exceeds the maximal nesting
depth of the recursive descent (every call level consumes at least one token),
so it is never exhausted. -/
def parse (tokens : List TokenWithSpan) : Option (Except String Program) :=
  parse_program (4 * tokens.length + 16) { tokens := tokens, current := 0 } [] []


/-! ## Type checker (src/type_checker.rs)

A total, single-pass structural analyzer.  `check_types` never fails: it
accumulates diagnostic strings.  Rust's `Vec::push` sequences are modelled as
list appends in the same order. -/

/-- Function signature record, mirroring `struct FunctionType`. -/
structure FunctionType where
  param_types : List (String × Ty)
  return_types : List Ty

/-- Checker state, mirroring `struct TypeChecker` (the Rust field `variables`
is named `vars`; see `Environment`). -/
structure TypeChecker where
  vars : List (String × Ty)
  functions : List (String × FunctionType)

mutual

/-- Derived `PartialEq` for `Type` (structural equality). -/
def ty_beq : Ty → Ty → Bool
  | .Int, .Int => true
  | .Float, .Float => true
  | .String, .String => true
  | .Bool, .Bool => true
  | .Null, .Null => true
  | .List a, .List b => ty_beq a b
  | .Map a b, .Map a' b' => ty_beq a a' && ty_beq b b'
  | .Function ps rs, .Function ps' rs' => ty_list_beq ps ps' && ty_list_beq rs rs'
  | .Any, .Any => true
  | _, _ => false

/-- Derived `PartialEq` for `Vec<Type>`. -/
def ty_list_beq : List Ty → List Ty → Bool
  | [], [] => true
  | a :: as_, b :: bs => ty_beq a b && ty_list_beq as_ bs
  | _, _ => false

end

/-- Translation of `types_compatible` from src/type_checker.rs: equal types, anything against
`Any`, and `Int`/`Float` in either order. -/
def types_compatible (actual expected : Ty) : Bool :=
  if ty_beq actual expected then true
  else
    match actual, expected with
    | _, .Any => true
    | .Int, .Float => true
    | .Float, .Int => true
    | _, _ => false

/-- Translation of `TypeChecker::infer_type`: literals, bound identifiers and conversion
results only; everything else is an error string. -/
def infer_type (c : TypeChecker) : Expr → Except String Ty
  | .IntLiteral _ => .ok .Int
  | .FloatLiteral _ => .ok .Float
  | .StringLiteral _ => .ok .String
  | .BoolLiteral _ => .ok .Bool
  | .NullLiteral => .ok .Null
  | .Identifier name =>
    (match lookupAssoc c.vars name with
     | some var_type => .ok var_type
     | none => .error ("Undefined variable: " ++ name))
  | .TypeConversion _ target_type => .ok target_type
  | e => .error ("Cannot infer type of complex expression: " ++ repr_expr e)

/-- The element loop of the `Expr::List` arm of `check_expr` (pure: it only
uses `infer_type`); fails on the first element incompatible with the first
element's type. -/
def check_list_items (c : TypeChecker) : List Expr → Ty → Nat → Except String Ty
  | [], first_type, _ => .ok (.List first_type)
  | item :: rest, first_type, i =>
    match infer_type c item with
    | .error e => .error e
    | .ok item_type =>
      if ¬ types_compatible item_type first_type then
        .error ("List contains mixed types: item " ++ toString i ++ " has type " ++
          repr_ty item_type ++ ", expected " ++ repr_ty first_type)
      else check_list_items c rest first_type (i + 1)

/-- The entry loop of the `Expr::Map` arm of `check_expr`. -/
def check_map_entries (c : TypeChecker) :
    List (Expr × Expr) → Ty → Ty → Nat → Except String Ty
  | [], first_key_type, first_val_type, _ => .ok (.Map first_key_type first_val_type)
  | (key, val) :: rest, first_key_type, first_val_type, i =>
    match infer_type c key with
    | .error e => .error e
    | .ok key_type =>
      if ¬ types_compatible key_type first_key_type then
        .error ("Map contains mixed key types: entry " ++ toString i ++ " has key type " ++
          repr_ty key_type ++ ", expected " ++ repr_ty first_key_type)
      else
        match infer_type c val with
        | .error e => .error e
        | .ok val_type =>
          if ¬ types_compatible val_type first_val_type then
            .error ("Map contains mixed value types: entry " ++ toString i ++
              " has value type " ++ repr_ty val_type ++ ", expected " ++
              repr_ty first_val_type)
          else check_map_entries c rest first_key_type first_val_type (i + 1)

/-- The argument loop of the `Expr::FunctionCall` arm of `check_expr`. -/
def check_call_args (c : TypeChecker) (name : String) :
    List Expr → List (String × Ty) → Nat → Except String Unit
  | [], _, _ => .ok ()
  | _, [], _ => .ok ()
  | arg :: args, (_, expected_type) :: ps, i =>
    match infer_type c arg with
    | .error e => .error e
    | .ok arg_type =>
      if ¬ types_compatible arg_type expected_type then
        .error ("Function '" ++ name ++ "' argument " ++ toString i ++ " has type " ++
          repr_ty arg_type ++ ", expected " ++ repr_ty expected_type)
      else check_call_args c name args ps (i + 1)

mutual

/-- Translation of `TypeChecker::check_expr`: validate one expression, returning its type or
the first error found inside it, threading the mutable checker state. -/
def check_expr (c : TypeChecker) : Expr → Except String Ty × TypeChecker
  | .IntLiteral _ => (.ok .Int, c)
  | .FloatLiteral _ => (.ok .Float, c)
  | .StringLiteral _ => (.ok .String, c)
  | .BoolLiteral _ => (.ok .Bool, c)
  | .NullLiteral => (.ok .Null, c)
  | .List items =>
    (match items with
     | [] => (.ok (.List .Any), c)
     | first :: rest =>
       match infer_type c first with
       | .error e => (.error e, c)
       | .ok first_type => (check_list_items c rest first_type 1, c))
  | .Map entries =>
    (match entries with
     | [] => (.ok (.Map .Any .Any), c)
     | (k, v) :: rest =>
       match infer_type c k with
       | .error e => (.error e, c)
       | .ok first_key_type =>
         match infer_type c v with
         | .error e => (.error e, c)
         | .ok first_val_type =>
           (check_map_entries c rest first_key_type first_val_type 1, c))
  | .Identifier name =>
    (match lookupAssoc c.vars name with
     | some var_type => (.ok var_type, c)
     | none => (.error ("Undefined variable: " ++ name), c))
  | .VarDeclaration name value =>
    (match infer_type c value with
     | .error e => (.error e, c)
     | .ok value_type =>
       (.ok value_type, { c with vars := insertAssoc c.vars name value_type }))
  | .BinaryOp left operator right =>
    (match infer_type c left with
     | .error e => (.error e, c)
     | .ok left_type =>
       match infer_type c right with
       | .error e => (.error e, c)
       | .ok right_type =>
         match operator with
         | .Add =>
           (match left_type, right_type with
            | .Int, .Int => (.ok .Int, c)
            | .Float, .Float => (.ok .Float, c)
            | .Int, .Float => (.ok .Float, c)
            | .Float, .Int => (.ok .Float, c)
            | .String, .String => (.ok .String, c)
            | _, _ =>
              (.error ("Cannot add values of types " ++ repr_ty left_type ++ " and " ++
                repr_ty right_type), c))
         | .Subtract | .Multiply | .Divide | .Modulo =>
           (match left_type, right_type with
            | .Int, .Int => (.ok .Int, c)
            | .Float, .Float => (.ok .Float, c)
            | .Int, .Float => (.ok .Float, c)
            | .Float, .Int => (.ok .Float, c)
            | _, _ =>
              (.error ("Cannot perform arithmetic on types " ++ repr_ty left_type ++
                " and " ++ repr_ty right_type), c))
         | .Equal | .NotEqual =>
           if types_compatible left_type right_type then (.ok .Bool, c)
           else
             (.error ("Cannot compare values of incompatible types " ++
               repr_ty left_type ++ " and " ++ repr_ty right_type), c)
         | .LessThan | .LessThanOrEqual | .GreaterThan | .GreaterThanOrEqual =>
           (match left_type, right_type with
            | .Int, .Int => (.ok .Bool, c)
            | .Float, .Float => (.ok .Bool, c)
            | .Int, .Float => (.ok .Bool, c)
            | .Float, .Int => (.ok .Bool, c)
            | .String, .String => (.ok .Bool, c)
            | _, _ =>
              (.error ("Cannot compare values of types " ++ repr_ty left_type ++
                " and " ++ repr_ty right_type), c))
         | .And | .Or =>
           if ty_beq left_type .Bool && ty_beq right_type .Bool then (.ok .Bool, c)
           else
             (.error ("Logical operators require boolean operands, got " ++
               repr_ty left_type ++ " and " ++ repr_ty right_type), c))
  | .UnaryOp operator expr =>
    (match infer_type c expr with
     | .error e => (.error e, c)
     | .ok expr_type =>
       match operator with
       | .Negate =>
         (match expr_type with
          | .Int => (.ok .Int, c)
          | .Float => (.ok .Float, c)
          | _ => (.error ("Cannot negate value of type " ++ repr_ty expr_type), c))
       | .Not =>
         if ty_beq expr_type .Bool then (.ok .Bool, c)
         else (.error ("Cannot apply logical NOT to type " ++ repr_ty expr_type), c)
       | .AddressOf =>
         -- modelled as producing a String, as in the source
         (.ok .String, c))
  | .If condition then_branch else_if_branches else_branch =>
    (match infer_type c condition with
     | .error e => (.error e, c)
     | .ok cond_type =>
       if ¬ ty_beq cond_type .Bool then
         (.error ("If condition must be boolean, got " ++ repr_ty cond_type), c)
       else
         match check_seq c then_branch with
         | (.error e, c') => (.error e, c')
         | (.ok _, c') =>
           match check_elifs c' else_if_branches with
           | (.error e, c'') => (.error e, c'')
           | (.ok _, c'') =>
             match else_branch with
             | none => (.ok .Null, c'')
             | some branch =>
               match check_seq c'' branch with
               | (.error e, c3) => (.error e, c3)
               | (.ok _, c3) => (.ok .Null, c3))
  | .Loop init condition update body =>
    (match (match init with
            | none => (Except.ok (), c)
            | some init_expr =>
              match check_expr c init_expr with
              | (.error e, c') => (Except.error e, c')
              | (.ok _, c') => (Except.ok (), c')) with
     | (.error e, c') => (.error e, c')
     | (.ok _, c') =>
       match (match condition with
              | none => Except.ok ()
              | some cond_expr =>
                match infer_type c' cond_expr with
                | .error e => Except.error e
                | .ok cond_type =>
                  if ¬ ty_beq cond_type .Bool then
                    Except.error ("Loop condition must be boolean, got " ++
                      repr_ty cond_type)
                  else Except.ok ()) with
       | .error e => (.error e, c')
       | .ok _ =>
         match (match update with
                | none => (Except.ok (), c')
                | some update_expr =>
                  match check_expr c' update_expr with
                  | (.error e, c'') => (Except.error e, c'')
                  | (.ok _, c'') => (Except.ok (), c'')) with
         | (.error e, c'') => (.error e, c'')
         | (.ok _, c'') =>
           match check_seq c'' body with
           | (.error e, c3) => (.error e, c3)
           | (.ok _, c3) => (.ok .Null, c3))
  | .Continue => (.ok .Null, c)
  | .Break => (.ok .Null, c)
  | .Return values =>
    (match check_seq c values with
     | (.error e, c') => (.error e, c')
     | (.ok _, c') => (.ok .Null, c'))
  | .FunctionCall name args =>
    (match lookupAssoc c.functions name with
     | some func_type =>
       if args.length ≠ func_type.param_types.length then
         (.error ("Function '" ++ name ++ "' expects " ++
           toString func_type.param_types.length ++ " arguments, got " ++
           toString args.length), c)
       else
         match check_call_args c name args func_type.param_types 0 with
         | .error e => (.error e, c)
         | .ok _ =>
           match func_type.return_types with
           | [] => (.ok .Null, c)
           | [t] => (.ok t, c)
           | t :: _ =>
             -- multiple return values: the checker uses the first type
             (.ok t, c)
     | none => (.error ("Undefined function: " ++ name), c))
  | .Output args =>
    (match check_seq c args with
     | (.error e, c') => (.error e, c')
     | (.ok _, c') => (.ok .Null, c'))
  | .OutputFormatted expr =>
    (match check_expr c expr with
     | (.error e, c') => (.error e, c')
     | (.ok expr_type, c') =>
       if ¬ ty_beq expr_type .String then
         (.error ("outputf requires a string argument, got " ++ repr_ty expr_type), c')
       else (.ok .Null, c'))
  | .OutputAddress expr =>
    (match check_expr c expr with
     | (.error e, c') => (.error e, c')
     | (.ok _, c') => (.ok .Null, c'))
  | .Input expr =>
    (match check_expr c expr with
     | (.error e, c') => (.error e, c')
     | (.ok expr_type, c') =>
       if ¬ ty_beq expr_type .String then
         (.error ("input requires a string prompt, got " ++ repr_ty expr_type), c')
       else (.ok .String, c'))
  | .InputFormatted expr =>
    (match check_expr c expr with
     | (.error e, c') => (.error e, c')
     | (.ok expr_type, c') =>
       if ¬ ty_beq expr_type .String then
         (.error ("inputf requires a string argument, got " ++ repr_ty expr_type), c')
       else (.ok .String, c'))
  | .TypeConversion expr target_type =>
    (match infer_type c expr with
     | .error e => (.error e, c)
     | .ok expr_type =>
       match expr_type, target_type with
       | .Int, .Float => (.ok .Float, c)
       | .Float, .Int => (.ok .Int, c)
       | .Int, .String => (.ok .String, c)
       | .Float, .String => (.ok .String, c)
       | .Bool, .String => (.ok .String, c)
       | .String, .Int => (.ok .Int, c)
       | .String, .Float => (.ok .Float, c)
       | .String, .Bool => (.ok .Bool, c)
       | _, _ =>
         (.error ("Cannot convert from " ++ repr_ty expr_type ++ " to " ++
           repr_ty target_type), c))
  | .TypeCheck expr _ _ =>
    (match check_expr c expr with
     | (.error e, c') => (.error e, c')
     | (.ok _, c') => (.ok .Bool, c'))
  | e => (.error ("Type checking not implemented for " ++ repr_expr e), c)

/-- A `for`/`?` loop of `check_expr` over a statement sequence: stop at the
first error, threading state. -/
def check_seq (c : TypeChecker) : List Expr → Except String Unit × TypeChecker
  | [] => (.ok (), c)
  | e :: rest =>
    match check_expr c e with
    | (.error msg, c') => (.error msg, c')
    | (.ok _, c') => check_seq c' rest

/-- The else-if loop of the `Expr::If` arm. -/
def check_elifs (c : TypeChecker) :
    List (Expr × List Expr) → Except String Unit × TypeChecker
  | [] => (.ok (), c)
  | (cond, branch) :: rest =>
    match infer_type c cond with
    | .error e => (.error e, c)
    | .ok cond_type =>
      if ¬ ty_beq cond_type .Bool then
        (.error ("Else-if condition must be boolean, got " ++ repr_ty cond_type), c)
      else
        match check_seq c branch with
        | (.error e, c') => (.error e, c')
        | (.ok _, c') => check_elifs c' rest

end

/-- Signature registration loop of `check_types`. -/
def register_function_types (acc : List (String × FunctionType)) :
    List (String × FunctionDef) → List (String × FunctionType)
  | [] => acc
  | (name, fd) :: rest =>
    register_function_types
      (insertAssoc acc name { param_types := fd.params, return_types := fd.return_types }) rest

/-- Parameter registration loop for a function's local checker. -/
def insert_params (acc : List (String × Ty)) : List (String × Ty) → List (String × Ty)
  | [] => acc
  | (pn, pt) :: rest => insert_params (insertAssoc acc pn pt) rest

/-- One statement-checking loop of `check_types` (used for function bodies,
wrapping errors with the function name, and for the main block with the
identity wrapping): push one diagnostic per failing statement and continue. -/
def check_stmts_errors (wrap : String → String) (c : TypeChecker) :
    List Expr → List String × TypeChecker
  | [] => ([], c)
  | e :: rest =>
    match check_expr c e with
    | (.error err, c') =>
      let r := check_stmts_errors wrap c' rest
      (wrap err :: r.1, r.2)
    | (.ok _, c') => check_stmts_errors wrap c' rest

/-- The per-position return-value compatibility loop of `check_types`
(an inference failure on a return value is silently skipped, as in the
source's `if let Ok(actual_type)`). -/
def return_value_errors (c : TypeChecker) (name : String) :
    List Expr → List Ty → Nat → List String
  | [], _, _ => []
  | _, [], _ => []
  | v :: vs, t :: ts, i =>
    (match infer_type c v with
     | .ok actual_type =>
       if ¬ types_compatible actual_type t then
         ["Function '" ++ name ++ "' return value " ++ toString i ++ " has type " ++
           repr_ty actual_type ++ ", expected " ++ repr_ty t]
       else []
     | .error _ => []) ++ return_value_errors c name vs ts (i + 1)

/-- The return-statement check of `check_types`: only performed when the body
is non-empty (`if let Some(last_expr) = func_def.body.last()`); a body not
ending in `Return` is flagged when the declared return types are non-empty and
not exactly `[Null]`. -/
def check_return_errors (c : TypeChecker) (name : String) (fd : FunctionDef) : List String :=
  match fd.body.getLast? with
  | some (.Return values) =>
    if values.length ≠ fd.return_types.length then
      ["Function '" ++ name ++ "' returns " ++ toString values.length ++
        " values, but declared to return " ++ toString fd.return_types.length ++ " values"]
    else return_value_errors c name values fd.return_types 0
  | some _ =>
    if ¬ fd.return_types.isEmpty ∧ ty_list_beq fd.return_types [.Null] = false then
      ["Function '" ++ name ++ "' is missing return statement"]
    else []
  | none => []

/-- The function-body loop of `check_types`: each function is checked in a
fresh local checker holding its parameters and all registered signatures. -/
def check_functions_errors (fns : List (String × FunctionType)) :
    List (String × FunctionDef) → List String
  | [] => []
  | (name, fd) :: rest =>
    let local_c : TypeChecker := { vars := insert_params [] fd.params, functions := fns }
    let r := check_stmts_errors (fun e => "In function '" ++ name ++ "': " ++ e) local_c fd.body
    (r.1 ++ check_return_errors r.2 name fd) ++ check_functions_errors fns rest

/-- Translation of `check_types` from src/type_checker.rs: register all signatures, check
every function body and its return contract, then check the main block;
accumulate every diagnostic, never failing. -/
def check_types (program : Program) : List String :=
  let fns := register_function_types [] program.functions
  check_functions_errors fns program.functions ++
    (check_stmts_errors (fun e => e) { vars := [], functions := fns } program.main_block).1


/-! ## Evaluator (src/interpreter.rs)

A fuelled tree-walking interpreter.  `print!`/`println!` output is modelled as
an accumulated list of printed lines (each `output`/`outputf` call prints one
newline-terminated line; flushing always succeeds, per the abstract sink of
the spec).  A result is `(Except String Value, Environment, List String)`:
the Rust `&mut Environment` and the output stream persist across an `Err`,
so both are returned on every path; `none` is fuel exhaustion (Rust recursion
without fuel), never produced on the runs proved below. -/

mutual

/-- Translation of `print_value` from src/interpreter.rs, as the text it prints. -/
def print_value : Value → String
  | .Int n => toString n
  | .Float q => float_to_string q
  | .String s => s
  | .Bool b => if b then "true" else "false"
  | .Null => "null"
  | .List items => "[" ++ print_value_items items ++ "]"
  | .Map entries => "[" ++ print_value_pairs entries ++ "]"
  | .Function name _ _ _ => "<function " ++ name ++ ">"

/-- The comma-space separated element rendering of `print_value` on lists. -/
def print_value_items : List Value → String
  | [] => ""
  | [v] => print_value v
  | v :: rest => print_value v ++ ", " ++ print_value_items rest

/-- The comma-space separated `key:value` rendering of `print_value` on maps. -/
def print_value_pairs : List (Value × Value) → String
  | [] => ""
  | [(k, v)] => print_value k ++ ":" ++ print_value v
  | (k, v) :: rest => print_value k ++ ":" ++ print_value v ++ ", " ++ print_value_pairs rest

end

/-- Rust `str::replace(pat, "")` for a single-character pattern: every
occurrence of the character is removed. -/
def remove_char (s : String) (c : Char) : String :=
  String.mk (s.data.filter (fun x => x != c))

/-- The opening brace character (written via `Char.ofNat` for hygiene). -/
def lbrace_char : Char := Char.ofNat 123

/-- The closing brace character. -/
def rbrace_char : Char := Char.ofNat 125

/-- Translation of `matches!(expr, Expr::Return(_))` from the function-call body loop. -/
def is_return_expr : Expr → Bool
  | .Return _ => true
  | _ => false

/-- The function-copy loop of the `Expr::FunctionCall` arm: copy every
function binding of the caller into the fresh call-frame environment. -/
def copy_functions : List (String × Value) → Environment → Environment
  | [], acc => acc
  | (fname, fval) :: rest, acc => copy_functions rest (acc.define_function fname fval)

mutual

/-- Translation of `evaluate_expr` from src/interpreter.rs.  Only literals, collections,
variable declarations, identifiers, `output`, `outputf`, `return`, function
calls and type conversions are implemented; every other expression kind
(binary/unary operators, `if`, `loop`, ...) falls into the final
"Unsupported expression" error arm (the source comment reads "Add other
expression types as needed"). -/
def evaluate_expr : Nat → Expr → Environment → List String →
    Option (Except String Value × Environment × List String)
  | 0, _, _, _ => none
  | fuel + 1, e, env, out =>
    match e with
    | .IntLiteral n => some (.ok (.Int n), env, out)
    | .FloatLiteral q => some (.ok (.Float q), env, out)
    | .StringLiteral s => some (.ok (.String s), env, out)
    | .BoolLiteral b => some (.ok (.Bool b), env, out)
    | .NullLiteral => some (.ok .Null, env, out)
    | .List items =>
      (match eval_items fuel items env out with
       | none => none
       | some (.error m, env', out') => some (.error m, env', out')
       | some (.ok values, env', out') => some (.ok (.List values), env', out'))
    | .Map entries =>
      (match eval_entries fuel entries env out with
       | none => none
       | some (.error m, env', out') => some (.error m, env', out')
       | some (.ok values, env', out') => some (.ok (.Map values), env', out'))
    | .VarDeclaration name value_expr =>
      (match evaluate_expr fuel value_expr env out with
       | none => none
       | some (.error m, env', out') => some (.error m, env', out')
       | some (.ok value, env', out') => some (.ok value, env'.define name value, out'))
    | .Identifier name =>
      (match env.get name with
       | some value => some (.ok value, env, out)
       | none => some (.error ("Undefined variable: " ++ name), env, out))
    | .Output args =>
      (match eval_items fuel args env out with
       | none => none
       | some (.error m, env', out') => some (.error m, env', out')
       | some (.ok values, env', out') =>
         -- values printed space-separated, then a newline, then a flush
         some (.ok .Null, env', out' ++ [String.intercalate " " (values.map print_value)]))
    | .OutputFormatted format_expr =>
      (match evaluate_expr fuel format_expr env out with
       | none => none
       | some (.error m, env', out') => some (.error m, env', out')
       | some (.ok (.String format_str), env', out') =>
         some (.ok .Null, env', out' ++ [remove_char (remove_char format_str lbrace_char) rbrace_char])
       | some (.ok _, env', out') =>
         some (.error "outputf requires a string argument", env', out'))
    | .Return values =>
      (match values with
       | [] => some (.ok .Null, env, out)
       | value :: _ =>
         -- the single-value and multiple-value source branches both evaluate
         -- only the first value (tuple returns are not implemented)
         evaluate_expr fuel value env out)
    | .FunctionCall name args =>
      (match env.get_function name with
       | some (.Function _ params _ body) =>
         -- create a new environment for the function and copy function definitions
         let func_env := copy_functions env.functions Environment.new
         if args.length ≠ params.length then
           some (.error ("Function '" ++ name ++ "' expects " ++ toString params.length ++
             " arguments, got " ++ toString args.length), env, out)
         else
           match eval_args_bind fuel args params env func_env out with
           | none => none
           | some (.error m, env', out') => some (.error m, env', out')
           | some (.ok func_env', env', out') =>
             match exec_body fuel body func_env' .Null out' with
             | none => none
             | some (.error m, _, out'') => some (.error m, env', out'')
             | some (.ok result, _, out'') => some (.ok result, env', out'')
       | _ => some (.error ("Undefined function: " ++ name), env, out))
    | .TypeConversion expr target_type =>
      (match evaluate_expr fuel expr env out with
       | none => none
       | some (.error m, env', out') => some (.error m, env', out')
       | some (.ok value, env', out') =>
         match value, target_type with
         | .Int n, .Float => some (.ok (.Float (n : Rat)), env', out')
         | .Float n, .Int => some (.ok (.Int (f64_as_i64 n)), env', out')
         | .Int n, .String => some (.ok (.String (toString n)), env', out')
         | .Float n, .String => some (.ok (.String (float_to_string n)), env', out')
         | .Bool b, .String =>
           some (.ok (.String (if b then "true" else "false")), env', out')
         | .String str, .Int =>
           (match parse_i64 str with
            | some n => some (.ok (.Int n), env', out')
            | none => some (.error ("Cannot convert '" ++ str ++ "' to int"), env', out'))
         | .String str, .Float =>
           (match parse_f64 str with
            | some n => some (.ok (.Float n), env', out')
            | none => some (.error ("Cannot convert '" ++ str ++ "' to float"), env', out'))
         | .String str, .Bool =>
           (match str.toLower with
            | "true" => some (.ok (.Bool true), env', out')
            | "false" => some (.ok (.Bool false), env', out')
            | _ => some (.error ("Cannot convert '" ++ str ++ "' to bool"), env', out'))
         | v, t =>
           some (.error ("Cannot convert " ++ repr_value v ++ " to " ++ repr_ty t),
             env', out'))
    | e => some (.error ("Unsupported expression: " ++ repr_expr e), env, out)

/-- The left-to-right element-evaluation loop shared by the `Expr::List` and
`Expr::Output` arms. -/
def eval_items : Nat → List Expr → Environment → List String →
    Option (Except String (List Value) × Environment × List String)
  | 0, _, _, _ => none
  | fuel + 1, items, env, out =>
    match items with
    | [] => some (.ok [], env, out)
    | item :: rest =>
      match evaluate_expr fuel item env out with
      | none => none
      | some (.error m, env', out') => some (.error m, env', out')
      | some (.ok v, env', out') =>
        match eval_items fuel rest env' out' with
        | none => none
        | some (.error m, env'', out'') => some (.error m, env'', out'')
        | some (.ok vs, env'', out'') => some (.ok (v :: vs), env'', out'')

/-- The key/value evaluation loop of the `Expr::Map` arm. -/
def eval_entries : Nat → List (Expr × Expr) → Environment → List String →
    Option (Except String (List (Value × Value)) × Environment × List String)
  | 0, _, _, _ => none
  | fuel + 1, entries, env, out =>
    match entries with
    | [] => some (.ok [], env, out)
    | (key, value) :: rest =>
      match evaluate_expr fuel key env out with
      | none => none
      | some (.error m, env', out') => some (.error m, env', out')
      | some (.ok key_val, env', out') =>
        match evaluate_expr fuel value env' out' with
        | none => none
        | some (.error m, env'', out'') => some (.error m, env'', out'')
        | some (.ok val_val, env'', out'') =>
          match eval_entries fuel rest env'' out'' with
          | none => none
          | some (.error m, e3, o3) => some (.error m, e3, o3)
          | some (.ok vs, e3, o3) => some (.ok ((key_val, val_val) :: vs), e3, o3)

/-- The argument-binding loop of the `Expr::FunctionCall` arm: each argument
is evaluated in the caller's environment, then bound positionally to its
parameter name in the call-frame environment.  On success the call-frame
environment is returned; the caller environment and output always are. -/
def eval_args_bind : Nat → List Expr → List (String × Ty) → Environment → Environment →
    List String → Option (Except String Environment × Environment × List String)
  | 0, _, _, _, _, _ => none
  | fuel + 1, args, params, env, func_env, out =>
    match args, params with
    | [], _ => some (.ok func_env, env, out)
    | arg :: rest, (pname, _) :: prest =>
      (match evaluate_expr fuel arg env out with
       | none => none
       | some (.error m, env', out') => some (.error m, env', out')
       | some (.ok arg_value, env', out') =>
         eval_args_bind fuel rest prest env' (func_env.define pname arg_value) out')
    | _ :: _, [] =>
      -- unreachable: the arity check guards this (Rust would panic on indexing)
      some (.error "parameter index out of bounds", env, out)

/-- The body-execution loop of the `Expr::FunctionCall` arm: evaluate the
statements in order, tracking the last result (initially `Null`), and stop
with the produced value as soon as a top-level `Expr::Return` statement has
been evaluated. -/
def exec_body : Nat → List Expr → Environment → Value → List String →
    Option (Except String Value × Environment × List String)
  | 0, _, _, _, _ => none
  | fuel + 1, body, env, result, out =>
    match body with
    | [] => some (.ok result, env, out)
    | e :: rest =>
      match evaluate_expr fuel e env out with
      | none => none
      | some (.error m, env', out') => some (.error m, env', out')
      | some (.ok v, env', out') =>
        if is_return_expr e then some (.ok v, env', out')
        else exec_body fuel rest env' v out'

end

/-- The function-registration loop of `interpret` (the map key becomes the
function value's `name` field, as in the source). -/
def register_functions : List (String × FunctionDef) → Environment → Environment
  | [], env => env
  | (name, fd) :: rest, env =>
    register_functions rest
      (env.define_function name (.Function name fd.params fd.return_types fd.body))

/-- The statement loop of `interpret` over the chosen entry block. -/
def interpret_stmts : Nat → List Expr → Environment → List String →
    Option (Except String Unit × Environment × List String)
  | 0, _, _, _ => none
  | fuel + 1, stmts, env, out =>
    match stmts with
    | [] => some (.ok (), env, out)
    | e :: rest =>
      match evaluate_expr fuel e env out with
      | none => none
      | some (.error m, env', out') => some (.error m, env', out')
      | some (.ok _, env', out') => interpret_stmts fuel rest env' out'

/-- Translation of `interpret` from src/interpreter.rs: register every declared function
unconditionally, then run the body of a function literally named `main` if
one exists (in the top-level environment), else the top-level statement
block.  `fuel` bounds the recursion depth of the modelled evaluator. -/
def interpret (fuel : Nat) (program : Program) : Option (Except String Unit × List String) :=
  let env := register_functions program.functions Environment.new
  match env.get_function "main" with
  | some (.Function _ _ _ body) =>
    (match interpret_stmts fuel body env [] with
     | none => none
     | some (r, _, out) => some (r, out))
  | _ =>
    match interpret_stmts fuel program.main_block env [] with
    | none => none
    | some (r, _, out) => some (r, out)


/-! ## Helper definitions and lemmas for the claim theorems -/

/-- Well-typedness of a statement sequence under the sequentially threaded
checker state: every statement's check succeeds.  (Amended-claim predicate for
C3, stated from the spec's words.) -/
def all_stmts_check_ok (c : TypeChecker) : List Expr → Bool
  | [] => true
  | e :: rest =>
    match check_expr c e with
    | (.ok _, c') => all_stmts_check_ok c' rest
    | (.error _, _) => false

/-- Number of statements of a sequence whose check fails, under the
sequentially threaded checker state.  (Amended-claim count for C3.) -/
def failing_stmt_count (c : TypeChecker) : List Expr → Nat
  | [] => 0
  | e :: rest =>
    match check_expr c e with
    | (.ok _, c') => failing_stmt_count c' rest
    | (.error _, c') => failing_stmt_count c' rest + 1

/-- The statement-checking loop produces exactly one diagnostic per failing
statement. -/
theorem check_stmts_errors_length (wrap : String → String) :
    ∀ (stmts : List Expr) (c : TypeChecker),
      (check_stmts_errors wrap c stmts).1.length = failing_stmt_count c stmts := by
  intro stmts
  induction stmts with
  | nil => intro c; rfl
  | cons e rest ih =>
    intro c
    simp only [check_stmts_errors, failing_stmt_count]
    cases h : check_expr c e with
    | mk r c' =>
      cases r with
      | ok t => simpa using ih c'
      | error m => simpa using ih c'

/-- The statement-checking loop produces no diagnostic exactly when every
statement checks. -/
theorem check_stmts_errors_nil_iff (wrap : String → String) :
    ∀ (stmts : List Expr) (c : TypeChecker),
      ((check_stmts_errors wrap c stmts).1 = [] ↔ all_stmts_check_ok c stmts = true) := by
  intro stmts
  induction stmts with
  | nil => intro c; simp [check_stmts_errors, all_stmts_check_ok]
  | cons e rest ih =>
    intro c
    simp only [check_stmts_errors, all_stmts_check_ok]
    cases h : check_expr c e with
    | mk r c' =>
      cases r with
      | ok t => simpa using ih c'
      | error m => simp

/-- Removing the two brace characters one after the other (the two `replace`
calls of the `outputf` arm) removes exactly the characters that are braces. -/
theorem remove_char_braces (s : String) :
    remove_char (remove_char s lbrace_char) rbrace_char =
      String.mk (s.data.filter (fun c => c != lbrace_char && c != rbrace_char)) := by
  simp only [remove_char, List.filter_filter]
  congr 1
  apply List.filter_congr
  intro a _
  exact Bool.and_comm _ _

/-! ## Claim theorems -/

/-- C1: the spec's intended semantics (reproduced by the type checker, which
accepts all four forms below) requires `evaluate_expr` to evaluate binary
operations, unary operations, `if` chains and `loop`s; the evaluator instead
has no arm for any of them and falls into its catch-all
"Unsupported expression" runtime error (its source reads "Add other
expression types as needed").  Each conjunct pairs the checker's acceptance of
a form whose operands satisfy the operand-compatibility rules with the
evaluator's runtime error on that same form. -/
theorem c1_documented_forms_unsupported :
    check_expr { vars := [], functions := [] }
        (.BinaryOp (.IntLiteral 1) .Add (.IntLiteral 2)) =
      (.ok .Int, { vars := [], functions := [] }) ∧
    evaluate_expr 1 (.BinaryOp (.IntLiteral 1) .Add (.IntLiteral 2)) Environment.new [] =
      some (.error "Unsupported expression: BinaryOp \x7b left: IntLiteral(1), operator: Add, right: IntLiteral(2) \x7d",
        Environment.new, []) ∧
    check_expr { vars := [], functions := [] } (.UnaryOp .Negate (.IntLiteral 1)) =
      (.ok .Int, { vars := [], functions := [] }) ∧
    evaluate_expr 1 (.UnaryOp .Negate (.IntLiteral 1)) Environment.new [] =
      some (.error "Unsupported expression: UnaryOp \x7b operator: Negate, expr: IntLiteral(1) \x7d",
        Environment.new, []) ∧
    check_expr { vars := [], functions := [] }
        (.If (.BoolLiteral true) [.IntLiteral 1] [] none) =
      (.ok .Null, { vars := [], functions := [] }) ∧
    evaluate_expr 1 (.If (.BoolLiteral true) [.IntLiteral 1] [] none) Environment.new [] =
      some (.error "Unsupported expression: If \x7b condition: BoolLiteral(true), then_branch: [IntLiteral(1)], else_if_branches: [], else_branch: None \x7d",
        Environment.new, []) ∧
    check_expr { vars := [], functions := [] } (.Loop none none none [.Break]) =
      (.ok .Null, { vars := [], functions := [] }) ∧
    evaluate_expr 1 (.Loop none none none [.Break]) Environment.new [] =
      some (.error "Unsupported expression: Loop \x7b init: None, condition: None, update: None, body: [Break] \x7d",
        Environment.new, []) :=
  ⟨rfl, rfl, rfl, rfl, rfl, rfl, rfl, rfl⟩

/-- C2: the documented expression grammar requires list literals,
parenthesized sub-expressions, unary prefixes, `if` chains, `loop`,
`continue` and the binary operators to parse; the parser (whose source reads
"Simplified parse_expression for now") rejects each of them with its
catch-all "Unexpected token" error.  The first conjuncts run the lexer to
show the rejected token sequence is exactly what the documented source text
produces. -/
theorem c2_documented_grammar_unparsed :
    tokenize "[1, 2]" = some (.ok
      [{ token := .LBracket, span := (0, 1) }, { token := .IntLiteral 1, span := (1, 2) },
       { token := .Comma, span := (2, 3) }, { token := .IntLiteral 2, span := (4, 5) },
       { token := .RBracket, span := (5, 6) }]) ∧
    parse
      [{ token := .LBracket, span := (0, 1) }, { token := .IntLiteral 1, span := (1, 2) },
       { token := .Comma, span := (2, 3) }, { token := .IntLiteral 2, span := (4, 5) },
       { token := .RBracket, span := (5, 6) }] =
      some (.error "Unexpected token: Some(LBracket)") ∧
    parse [{ token := .If, span := (0, 2) }, { token := .True, span := (3, 7) },
       { token := .LBrace, span := (8, 9) }, { token := .RBrace, span := (10, 11) }] =
      some (.error "Unexpected token: Some(If)") ∧
    parse [{ token := .Loop, span := (0, 4) }] =
      some (.error "Unexpected token: Some(Loop)") ∧
    parse [{ token := .LParen, span := (0, 1) }, { token := .IntLiteral 1, span := (1, 2) },
       { token := .RParen, span := (2, 3) }] =
      some (.error "Unexpected token: Some(LParen)") ∧
    parse [{ token := .Minus, span := (0, 1) }, { token := .Identifier "x", span := (1, 2) }] =
      some (.error "Unexpected token: Some(Minus)") ∧
    parse [{ token := .Continue, span := (0, 8) }] =
      some (.error "Unexpected token: Some(Continue)") :=
  ⟨rfl, rfl, rfl, rfl, rfl, rfl, rfl⟩

/-- C3 counterexample: this one-statement program contains two independent
type inconsistencies (the list's item 1 (`"a"`) and item 2 (`true`) each
mismatch the first element's type `Int`), yet `check_types` returns exactly
one diagnostic — `check_expr` stops at the first inconsistency inside a
statement — refuting "one diagnostic string for every type inconsistency". -/
theorem c3_single_diagnostic_for_two_inconsistencies :
    check_types
        { functions := [],
          main_block := [.List [.IntLiteral 1, .StringLiteral "a", .BoolLiteral true]] } =
      ["List contains mixed types: item 1 has type String, expected Int"] ∧
    (check_types
        { functions := [],
          main_block := [.List [.IntLiteral 1, .StringLiteral "a", .BoolLiteral true]] }).length = 1 :=
  ⟨rfl, rfl⟩

/-- The number of diagnostics one function contributes: one per failing body
statement, plus those of its return-contract check (amended-claim count for
C3, stated from the amended claim's words over the code's threaded state). -/
def function_failing_count (fns : List (String × FunctionType)) (name : String)
    (fd : FunctionDef) : Nat :=
  failing_stmt_count { vars := insert_params [] fd.params, functions := fns } fd.body +
    (check_return_errors
      (check_stmts_errors (fun e => "In function '" ++ name ++ "': " ++ e)
        { vars := insert_params [] fd.params, functions := fns } fd.body).2 name fd).length

/-- One function passes: every body statement checks and its return-contract
check is silent (amended-claim predicate for C3). -/
def function_check_ok (fns : List (String × FunctionType)) (name : String)
    (fd : FunctionDef) : Bool :=
  all_stmts_check_ok { vars := insert_params [] fd.params, functions := fns } fd.body &&
    (check_return_errors
      (check_stmts_errors (fun e => "In function '" ++ name ++ "': " ++ e)
        { vars := insert_params [] fd.params, functions := fns } fd.body).2 name fd).isEmpty

/-- Total diagnostic count of a program: the per-function counts plus one per
failing main-block statement (amended-claim count for C3). -/
def program_failing_count (p : Program) : Nat :=
  (p.functions.map (fun nf =>
    function_failing_count (register_function_types [] p.functions) nf.1 nf.2)).sum +
    failing_stmt_count
      { vars := [], functions := register_function_types [] p.functions } p.main_block

/-- A program is accepted by the checker: every function passes and every
main-block statement checks (amended-claim predicate for C3). -/
def program_check_ok (p : Program) : Bool :=
  (p.functions.all (fun nf =>
    function_check_ok (register_function_types [] p.functions) nf.1 nf.2)) &&
    all_stmts_check_ok
      { vars := [], functions := register_function_types [] p.functions } p.main_block

/-- The function-body loop contributes exactly the per-function counts. -/
theorem check_functions_errors_length (fns : List (String × FunctionType)) :
    ∀ l : List (String × FunctionDef),
      (check_functions_errors fns l).length =
        (l.map (fun nf => function_failing_count fns nf.1 nf.2)).sum := by
  intro l
  induction l with
  | nil => rfl
  | cons nf tl ih =>
    rcases nf with ⟨name, fd⟩
    simp only [check_functions_errors, List.map_cons, List.sum_cons, List.length_append]
    rw [check_stmts_errors_length, ih]
    simp only [function_failing_count]

/-- The function-body loop is silent exactly when every listed function
passes. -/
theorem check_functions_errors_nil_iff (fns : List (String × FunctionType)) :
    ∀ l : List (String × FunctionDef),
      (check_functions_errors fns l = [] ↔
        l.all (fun nf => function_check_ok fns nf.1 nf.2) = true) := by
  intro l
  induction l with
  | nil => simp [check_functions_errors]
  | cons nf tl ih =>
    rcases nf with ⟨name, fd⟩
    simp only [check_functions_errors, List.all_cons, Bool.and_eq_true, List.append_eq_nil,
      function_check_ok]
    rw [check_stmts_errors_nil_iff, ih, List.isEmpty_iff]
    constructor
    · rintro ⟨⟨h1, h2⟩, h3⟩
      exact ⟨⟨h1, h2⟩, h3⟩
    · rintro ⟨⟨h1, h2⟩, h3⟩
      exact ⟨⟨h1, h2⟩, h3⟩

/-- The per-position return-value loop reports at most one diagnostic per
declared return position. -/
theorem return_value_errors_length_le (c : TypeChecker) (name : String) :
    ∀ (vs : List Expr) (ts : List Ty) (i : Nat),
      (return_value_errors c name vs ts i).length ≤ ts.length := by
  intro vs
  induction vs with
  | nil => intro ts i; simp [return_value_errors]
  | cons v vs ih =>
    intro ts i
    cases ts with
    | nil => simp [return_value_errors]
    | cons t ts =>
      have h := ih ts (i + 1)
      cases hinf : infer_type c v with
      | error m =>
        simp only [return_value_errors, hinf, List.nil_append, List.length_cons]
        omega
      | ok a =>
        simp only [return_value_errors, hinf, List.length_append, List.length_cons]
        split <;> simp <;> omega

/-- The return-contract check of one function reports at most one diagnostic
for an arity mismatch or missing return, and at most one per declared return
position otherwise. -/
theorem check_return_errors_length_le (c : TypeChecker) (name : String)
    (fd : FunctionDef) :
    (check_return_errors c name fd).length ≤ max 1 fd.return_types.length := by
  have hite : ∀ (b : Prop) (inst : Decidable b) (msg : String),
      (if b then [msg] else ([] : List String)).length ≤ 1 := by
    intro b inst msg
    split <;> simp
  unfold check_return_errors
  cases hl : fd.body.getLast? with
  | none => simp
  | some last =>
    cases last <;>
      first
        | exact le_trans (hite _ _ _) (Nat.le_max_left 1 _)
        | (rename_i values
           show (if values.length ≠ fd.return_types.length then
               ["Function '" ++ name ++ "' returns " ++ toString values.length ++
                 " values, but declared to return " ++ toString fd.return_types.length ++
                 " values"]
             else return_value_errors c name values fd.return_types 0).length ≤
             max 1 fd.return_types.length
           split
           · simp
           · have hle := return_value_errors_length_le c name values fd.return_types 0
             omega)

/-- C3 amended: `check_types` is total (it never throws); it returns `[]`
exactly when every statement of every function body and of the main block
checks and every function's return contract is satisfied; each failing
statement — of a function body or of the main block — contributes exactly one
diagnostic (the first inconsistency `check_expr` finds inside it), so errors
in distinct statements are each reported; and the only source of several
diagnostics tied to one statement is the separate per-function return-contract
check, which reports at most one diagnostic for an arity mismatch or missing
return and at most one per declared return position. -/
theorem c3_one_diagnostic_per_failing_statement (p : Program) :
    (check_types p).length = program_failing_count p ∧
    (check_types p = [] ↔ program_check_ok p = true) ∧
    (∀ (c : TypeChecker) (name : String) (fd : FunctionDef),
      (check_return_errors c name fd).length ≤ max 1 fd.return_types.length) := by
  refine ⟨?_, ?_, fun c name fd => check_return_errors_length_le c name fd⟩
  · unfold check_types program_failing_count
    simp only [List.length_append]
    rw [check_functions_errors_length, check_stmts_errors_length]
  · unfold check_types program_check_ok
    rw [List.append_eq_nil, check_functions_errors_nil_iff, check_stmts_errors_nil_iff,
      Bool.and_eq_true]

/-- C5 counterexample: a function whose declared return-type list is `[Int]`
(non-empty and not `[Null]`) and whose body is empty is not flagged by
`check_types` — the missing-return check sits inside
`if let Some(last_expr) = func_def.body.last()` and is skipped entirely for an
empty body — refuting "including the case of an empty body". -/
theorem c5_empty_body_not_flagged :
    check_types
        { functions :=
            [("f", { name := "f", params := [], return_types := [.Int], body := [] })],
          main_block := [] } = [] :=
  rfl

/-- C6 counterexample: the block comment `###\nx\n#\n###` (span 0..11) has a
`#` in its body, so the block-comment rule `###[^#]*###` does not match it;
the lexer instead treats each `#`-initial line as a line comment and the body
text `x` leaks out as an `Identifier` token at span 4..5, inside the
comment's span — refuting "no token in the output overlaps the comment's
span ... for every comment body including bodies that contain a `#`". -/
theorem c6_comment_with_hash_leaks_token :
    tokenize "###\nx\n#\n###" =
      some (.ok [{ token := .Identifier "x", span := (4, 5) }]) :=
  rfl

/-- C7: calling a declared function with the wrong number of arguments
produces exactly the runtime error naming the function and both counts, and
returns the caller's environment and output stream untouched — the arity
check precedes argument evaluation and body execution, so no statement runs,
nothing is printed, and every variable binding is unchanged. -/
theorem c7_wrong_arity_error_no_effects (fuel : Nat) (name : String) (args : List Expr)
    (env : Environment) (out : List String) (fname : String)
    (params : List (String × Ty)) (rts : List Ty) (body : List Expr)
    (hf : env.get_function name = some (.Function fname params rts body))
    (hne : args.length ≠ params.length) :
    evaluate_expr (fuel + 1) (.FunctionCall name args) env out =
      some (.error ("Function '" ++ name ++ "' expects " ++ toString params.length ++
        " arguments, got " ++ toString args.length), env, out) := by
  simp only [evaluate_expr, hf]
  rw [if_pos hne]

/-- C7 witness. -/
theorem c7_wrong_arity_error_no_effects_witness :
    evaluate_expr 1 (.FunctionCall "f" [])
      { vars := [], functions := [("f", .Function "f" [("x", .Int)] [] [])] } [] =
      some (.error "Function 'f' expects 1 arguments, got 0",
        { vars := [], functions := [("f", .Function "f" [("x", .Int)] [] [])] }, []) :=
  c7_wrong_arity_error_no_effects 0 "f" []
    { vars := [], functions := [("f", .Function "f" [("x", .Int)] [] [])] } []
    "f" [("x", .Int)] [] [] rfl (by decide)

/-- C10: converting a `Float` value to `Int` truncates toward zero (floor for
non-negative values, ceiling for negative ones) and succeeds whenever the
truncation lies in the `i64` range — the `n as i64` cast never rounds to
nearest and only saturates outside that range. -/
theorem c10_int_of_float_truncates_toward_zero (fuel : Nat) (e : Expr) (env : Environment)
    (out : List String) (q : Rat) (env' : Environment) (out' : List String)
    (h : evaluate_expr fuel e env out = some (.ok (.Float q), env', out'))
    (hlo : i64_min ≤ rat_trunc q) (hhi : rat_trunc q ≤ i64_max) :
    evaluate_expr (fuel + 1) (.TypeConversion e .Int) env out =
      some (.ok (.Int (rat_trunc q)), env', out') ∧
    (0 ≤ q → rat_trunc q = ⌊q⌋) ∧ (q < 0 → rat_trunc q = ⌈q⌉) := by
  refine ⟨?_, ?_, ?_⟩
  · simp only [evaluate_expr, h]
    have h1 : ¬ rat_trunc q < i64_min := by omega
    have h2 : ¬ i64_max < rat_trunc q := by omega
    simp [f64_as_i64, h1, h2]
  · intro h0; simp [rat_trunc, h0]
  · intro h0; simp [rat_trunc, not_le.mpr h0]

/-- C10 witness: `int(1.9)` yields `Int(1)` and `int(-1.9)` yields `Int(-1)`
(round-to-nearest would give `Int(2)` and `Int(-2)`). -/
theorem c10_int_of_float_truncates_toward_zero_witness :
    evaluate_expr 2 (.TypeConversion (.FloatLiteral (19 / 10)) .Int) Environment.new [] =
      some (.ok (.Int 1), Environment.new, []) ∧
    evaluate_expr 2 (.TypeConversion (.FloatLiteral (-(19 / 10))) .Int) Environment.new [] =
      some (.ok (.Int (-1)), Environment.new, []) := by
  have t1 : rat_trunc ((19 : Rat) / 10) = 1 := by
    have hf : ⌊(19 : Rat) / 10⌋ = 1 := by
      rw [Int.floor_eq_iff]
      norm_num
    rw [rat_trunc, if_pos (by norm_num), hf]
  have t2 : rat_trunc (-((19 : Rat) / 10)) = -1 := by
    have hc : ⌈-((19 : Rat) / 10)⌉ = -1 := by
      rw [Int.ceil_eq_iff]
      norm_num
    rw [rat_trunc, if_neg (by norm_num), hc]
  constructor
  · have h := (c10_int_of_float_truncates_toward_zero 1 (.FloatLiteral (19 / 10))
      Environment.new [] (19 / 10) Environment.new [] rfl
      (by rw [t1]; decide) (by rw [t1]; decide)).1
    rw [t1] at h
    exact h
  · have h := (c10_int_of_float_truncates_toward_zero 1 (.FloatLiteral (-(19 / 10)))
      Environment.new [] (-(19 / 10)) Environment.new [] rfl
      (by rw [t2]; decide) (by rw [t2]; decide)).1
    rw [t2] at h
    exact h

/-- C8: when the argument of `outputf` evaluates to a `String`, exactly one
line is printed — the string with every brace character removed (the two
single-character `replace` calls) — and the result is `Null`; when it
evaluates to any non-`String` value, the result is the
"outputf requires a string argument" runtime error. -/
theorem c8_outputf_strips_braces (fuel : Nat) (arg : Expr) (env : Environment)
    (out : List String) :
    (∀ s env' out', evaluate_expr fuel arg env out = some (.ok (.String s), env', out') →
      evaluate_expr (fuel + 1) (.OutputFormatted arg) env out =
        some (.ok .Null, env',
          out' ++ [String.mk (s.data.filter (fun c => c != lbrace_char && c != rbrace_char))])) ∧
    (∀ v env' out', evaluate_expr fuel arg env out = some (.ok v, env', out') →
      (∀ s, v ≠ Value.String s) →
      evaluate_expr (fuel + 1) (.OutputFormatted arg) env out =
        some (.error "outputf requires a string argument", env', out')) := by
  constructor
  · intro s env' out' h
    simp only [evaluate_expr, h]
    rw [remove_char_braces]
  · intro v env' out' h hv
    simp only [evaluate_expr, h]

/-- C8 witness. -/
theorem c8_outputf_strips_braces_witness :
    evaluate_expr 2 (.OutputFormatted (.StringLiteral "a\x7bb\x7dc")) Environment.new [] =
      some (.ok .Null, Environment.new, ["abc"]) ∧
    evaluate_expr 2 (.OutputFormatted (.IntLiteral 1)) Environment.new [] =
      some (.error "outputf requires a string argument", Environment.new, []) :=
  ⟨(c8_outputf_strips_braces 1 (.StringLiteral "a\x7bb\x7dc") Environment.new []).1
      "a\x7bb\x7dc" Environment.new [] rfl,
   (c8_outputf_strips_braces 1 (.IntLiteral 1) Environment.new []).2
      (.Int 1) Environment.new [] rfl (fun _ h => Value.noConfusion h)⟩


/-- Sequential evaluation of a statement list that keeps the value of the last
evaluated statement (claim-side description for C9, following the claim's
words; the accumulator starts at the interpreter's initial `Null`, which is
returned for an empty body). -/
def eval_stmts_last : Nat → List Expr → Environment → Value → List String →
    Option (Except String Value × Environment × List String)
  | 0, _, _, _, _ => none
  | fuel + 1, stmts, env, result, out =>
    match stmts with
    | [] => some (.ok result, env, out)
    | e :: rest =>
      match evaluate_expr fuel e env out with
      | none => none
      | some (.error m, env', out') => some (.error m, env', out')
      | some (.ok v, env', out') => eval_stmts_last fuel rest env' v out'

/-- C9: for a function body containing no top-level `Return` statement, the
body-execution loop of `Expr::FunctionCall` (`exec_body`, entered with the
initial result `Null`) behaves exactly as plain sequential evaluation that
returns the value of the last evaluated statement — so a call whose body
evaluates without error returns the last statement's value (and `Null` only
for an empty body), not `Null` unconditionally. -/
theorem c9_no_return_returns_last_value (fuel : Nat) :
    ∀ (body : List Expr) (env : Environment) (result : Value) (out : List String),
      (∀ e ∈ body, is_return_expr e = false) →
      exec_body fuel body env result out = eval_stmts_last fuel body env result out := by
  induction fuel with
  | zero => intro body env result out _; rfl
  | succ fuel ih =>
    intro body env result out h
    cases body with
    | nil => rfl
    | cons e rest =>
      simp only [exec_body, eval_stmts_last]
      cases hev : evaluate_expr fuel e env out with
      | none => rfl
      | some r =>
        rcases r with ⟨r, env', out'⟩
        cases r with
        | error m => rfl
        | ok v =>
          rw [h e (List.mem_cons_self e rest)]
          simp only [Bool.false_eq_true, if_false]
          exact ih rest env' v out' (fun e' he' => h e' (List.mem_cons_of_mem e he'))

/-- C9 witness: a body consisting of the single statement `x = 5` makes the
call return `Int(5)`. -/
theorem c9_no_return_returns_last_value_witness :
    exec_body 3 [.VarDeclaration "x" (.IntLiteral 5)] Environment.new .Null [] =
      eval_stmts_last 3 [.VarDeclaration "x" (.IntLiteral 5)] Environment.new .Null [] ∧
    exec_body 3 [.VarDeclaration "x" (.IntLiteral 5)] Environment.new .Null [] =
      some (.ok (.Int 5), { vars := [("x", .Int 5)], functions := [] }, []) :=
  ⟨c9_no_return_returns_last_value 3 [.VarDeclaration "x" (.IntLiteral 5)]
      Environment.new .Null []
      (by intro e he; rw [List.mem_singleton] at he; subst he; rfl),
   rfl⟩

/-- The return-statement check produces exactly the missing-return diagnostic
when the (non-empty) body ends in a non-`Return` statement and the declared
return types are non-empty and not `[Null]`. -/
theorem check_return_errors_missing (c : TypeChecker) (name : String) (fd : FunctionDef)
    (last : Expr) (hlast : fd.body.getLast? = some last)
    (hnr : is_return_expr last = false)
    (hne : fd.return_types.isEmpty = false)
    (hnn : ty_list_beq fd.return_types [.Null] = false) :
    check_return_errors c name fd =
      ["Function '" ++ name ++ "' is missing return statement"] := by
  have hne' : fd.return_types ≠ [] := by
    intro h
    rw [h] at hne
    exact absurd hne (by decide)
  unfold check_return_errors
  rw [hlast]
  cases last <;> simp [is_return_expr] at hnr ⊢ <;> simp [hne', hnn]

/-- Membership of the missing-return diagnostic in the function-body loop's
output, for any listed function satisfying the amended conditions. -/
theorem check_functions_errors_missing (name : String) (fd : FunctionDef)
    (last : Expr) (hlast : fd.body.getLast? = some last)
    (hnr : is_return_expr last = false)
    (hne : fd.return_types.isEmpty = false)
    (hnn : ty_list_beq fd.return_types [.Null] = false) :
    ∀ (fns : List (String × FunctionType)) (l : List (String × FunctionDef)),
      (name, fd) ∈ l →
      ("Function '" ++ name ++ "' is missing return statement") ∈
        check_functions_errors fns l := by
  intro fns l hmem
  induction l with
  | nil => cases hmem
  | cons hd tl ih =>
    rcases hd with ⟨n', fd'⟩
    simp only [check_functions_errors]
    rcases List.mem_cons.mp hmem with heq | htl
    · cases heq
      apply List.mem_append_left
      apply List.mem_append_right
      rw [check_return_errors_missing _ name fd last hlast hnr hne hnn]
      exact List.mem_singleton.mpr rfl
    · exact List.mem_append_right _ (ih htl)

/-- C5 amended: a function whose declared return types are non-empty and not
exactly `[Null]`, and whose NON-EMPTY body does not end in a `Return`
statement, is flagged with the missing-return diagnostic; the empty-body case
of the claim fails (see the counterexample): the check sits inside
`if let Some(last_expr) = func_def.body.last()` and never runs for an empty
body. -/
theorem c5_missing_return_flagged_nonempty (p : Program) (name : String)
    (fd : FunctionDef) (hmem : (name, fd) ∈ p.functions)
    (last : Expr) (hlast : fd.body.getLast? = some last)
    (hnr : is_return_expr last = false)
    (hne : fd.return_types.isEmpty = false)
    (hnn : ty_list_beq fd.return_types [.Null] = false) :
    ("Function '" ++ name ++ "' is missing return statement") ∈ check_types p := by
  unfold check_types
  exact List.mem_append_left _
    (check_functions_errors_missing name fd last hlast hnr hne hnn _ _ hmem)

/-- C5 witness: a function with declared return type `[Int]` whose body is the
single non-return statement `x = 5` is flagged. -/
theorem c5_missing_return_flagged_nonempty_witness :
    ("Function 'f' is missing return statement") ∈
      check_types
        { functions :=
            [("f", { name := "f", params := [], return_types := [.Int],
                     body := [.VarDeclaration "x" (.IntLiteral 5)] })],
          main_block := [] } :=
  c5_missing_return_flagged_nonempty _ "f"
    { name := "f", params := [], return_types := [.Int],
      body := [.VarDeclaration "x" (.IntLiteral 5)] }
    (List.mem_singleton.mpr rfl) (.VarDeclaration "x" (.IntLiteral 5)) rfl rfl rfl rfl


/-- Lookup misses keys that are not present. -/
theorem lookupAssoc_not_mem {α : Type} (l : List (String × α)) (k : String)
    (h : k ∉ l.map Prod.fst) : lookupAssoc l k = none := by
  induction l with
  | nil => rfl
  | cons hd tl ih =>
    rcases hd with ⟨k', v'⟩
    simp only [List.map_cons, List.mem_cons] at h
    push_neg at h
    simp only [lookupAssoc, if_neg (Ne.symm h.1)]
    exact ih h.2

/-- Inserting an absent key appends it at the end. -/
theorem insertAssoc_not_mem {α : Type} (l : List (String × α)) (k : String) (v : α)
    (h : k ∉ l.map Prod.fst) : insertAssoc l k v = l ++ [(k, v)] := by
  induction l with
  | nil => rfl
  | cons hd tl ih =>
    rcases hd with ⟨k', v'⟩
    simp only [List.map_cons, List.mem_cons] at h
    push_neg at h
    simp only [insertAssoc, if_neg (Ne.symm h.1), List.cons_append, List.cons.injEq, true_and]
    exact ih h.2

/-- Lookup after inserting the same key. -/
theorem lookupAssoc_insert_self {α : Type} (l : List (String × α)) (k : String) (v : α) :
    lookupAssoc (insertAssoc l k v) k = some v := by
  induction l with
  | nil => simp [insertAssoc, lookupAssoc]
  | cons hd tl ih =>
    rcases hd with ⟨k', v'⟩
    by_cases hk : k' = k
    · simp [insertAssoc, lookupAssoc, hk]
    · simp only [insertAssoc, if_neg hk, lookupAssoc, if_neg hk]
      exact ih

/-- Lookup of a different key is unchanged by an insert. -/
theorem lookupAssoc_insert_ne {α : Type} (l : List (String × α)) (k k' : String) (v : α)
    (h : k' ≠ k) : lookupAssoc (insertAssoc l k v) k' = lookupAssoc l k' := by
  induction l with
  | nil => simp [insertAssoc, lookupAssoc, if_neg (Ne.symm h)]
  | cons hd tl ih =>
    rcases hd with ⟨a, b⟩
    by_cases hk : a = k
    · subst hk
      simp only [insertAssoc, if_pos rfl, lookupAssoc, if_neg (Ne.symm h)]
    · simp only [insertAssoc, if_neg hk, lookupAssoc]
      by_cases ha : a = k'
      · simp [ha]
      · simp only [if_neg ha]
        exact ih

/-- The function-copy loop reproduces the copied bindings verbatim after the
accumulator's, provided the keys are distinct and fresh. -/
theorem copy_functions_spec :
    ∀ (l : List (String × Value)) (acc : Environment),
      (l.map Prod.fst).Nodup →
      (∀ k ∈ l.map Prod.fst, k ∉ acc.functions.map Prod.fst) →
      copy_functions l acc = { vars := acc.vars, functions := acc.functions ++ l } := by
  intro l
  induction l with
  | nil => intro acc _ _; simp [copy_functions]
  | cons hd tl ih =>
    rcases hd with ⟨k, v⟩
    intro acc hnd hfresh
    simp only [List.map_cons, List.nodup_cons] at hnd
    have hkacc : k ∉ acc.functions.map Prod.fst :=
      hfresh k (by simp)
    have hfresh' : ∀ k' ∈ tl.map Prod.fst,
        k' ∉ ({ acc with functions := acc.functions ++ [(k, v)] } : Environment).functions.map Prod.fst := by
      intro k' hk'
      simp only [List.map_append, List.mem_append, List.map_cons, List.map_nil,
        List.mem_singleton, not_or]
      refine ⟨hfresh k' (by simp [hk']), ?_⟩
      intro hk'k
      exact hnd.1 (hk'k ▸ hk')
    simp only [copy_functions, Environment.define_function]
    rw [insertAssoc_not_mem acc.functions k v hkacc]
    rw [ih { acc with functions := acc.functions ++ [(k, v)] } hnd.2 hfresh']
    simp

/-- The parameter-binding fold of the call frame, as performed by
`eval_args_bind` on the already-evaluated argument values. -/
def bind_params (F : Environment) : List (String × Ty) → List Value → Environment
  | [], _ => F
  | _ :: _, [] => F
  | (pname, _) :: ps, v :: vs => bind_params (F.define pname v) ps vs

/-- Binding parameters never touches the function map. -/
theorem bind_params_functions :
    ∀ (ps : List (String × Ty)) (vs : List Value) (F : Environment),
      (bind_params F ps vs).functions = F.functions := by
  intro ps
  induction ps with
  | nil => intro vs F; rfl
  | cons p ps ih =>
    intro vs F
    rcases p with ⟨pname, pty⟩
    cases vs with
    | nil => rfl
    | cons v vs => exact ih vs (F.define pname v)

/-- Binding parameters leaves every non-parameter variable untouched. -/
theorem bind_params_get_not_mem :
    ∀ (ps : List (String × Ty)) (vs : List Value) (F : Environment) (x : String),
      x ∉ ps.map Prod.fst → (bind_params F ps vs).get x = F.get x := by
  intro ps
  induction ps with
  | nil => intro vs F x _; rfl
  | cons p ps ih =>
    intro vs F x hx
    rcases p with ⟨pname, pty⟩
    simp only [List.map_cons, List.mem_cons] at hx
    push_neg at hx
    cases vs with
    | nil => rfl
    | cons v vs =>
      simp only [bind_params]
      rw [ih vs (F.define pname v) x hx.2]
      simp only [Environment.get, Environment.define]
      exact lookupAssoc_insert_ne F.vars pname x v hx.1

/-- With distinct parameter names, each parameter is bound to the value at
its own position. -/
theorem bind_params_get_pos :
    ∀ (ps : List (String × Ty)) (vs : List Value) (F : Environment),
      (ps.map Prod.fst).Nodup → ps.length = vs.length →
      ∀ (i : Nat) (h : i < ps.length),
        (bind_params F ps vs).get ((ps.get ⟨i, h⟩).1) = vs.get? i := by
  intro ps
  induction ps with
  | nil => intro vs F _ _ i h; exact absurd h (Nat.not_lt_zero i)
  | cons p ps ih =>
    intro vs F hnd hlen i h
    rcases p with ⟨pname, pty⟩
    cases vs with
    | nil => simp at hlen
    | cons v vs =>
      simp only [List.map_cons, List.nodup_cons] at hnd
      cases i with
      | zero =>
        simp only [bind_params, List.get, List.get?]
        rw [bind_params_get_not_mem ps vs (F.define pname v) pname hnd.1]
        simp only [Environment.get, Environment.define]
        exact lookupAssoc_insert_self F.vars pname v
      | succ i =>
        simp only [bind_params, List.get, List.get?]
        exact ih vs (F.define pname v) hnd.2 (by simpa using hlen) i
          (Nat.lt_of_succ_lt_succ h)

/-- A successful element-evaluation run yields one value per expression. -/
theorem eval_items_length :
    ∀ (fuel : Nat) (args : List Expr) (env : Environment) (out : List String)
      (vals : List Value) (env₂ : Environment) (out₂ : List String),
      eval_items fuel args env out = some (.ok vals, env₂, out₂) →
      vals.length = args.length := by
  intro fuel
  induction fuel with
  | zero => intro args env out vals env₂ out₂ h; exact absurd h (by simp [eval_items])
  | succ fuel ih =>
    intro args env out vals env₂ out₂ h
    cases args with
    | nil =>
      simp only [eval_items, Option.some.injEq, Prod.mk.injEq, Except.ok.injEq] at h
      rw [← h.1]
      rfl
    | cons a rest =>
      cases hev : evaluate_expr fuel a env out with
      | none => simp [eval_items, hev] at h
      | some r =>
        rcases r with ⟨r, env', out'⟩
        cases r with
        | error m => simp [eval_items, hev] at h
        | ok v =>
          simp only [eval_items, hev] at h
          cases hrest : eval_items fuel rest env' out' with
          | none => simp [hrest] at h
          | some r2 =>
            rcases r2 with ⟨r2, env'', out''⟩
            cases r2 with
            | error m => simp [hrest] at h
            | ok vs =>
              simp only [hrest, Option.some.injEq, Prod.mk.injEq, Except.ok.injEq] at h
              rw [← h.1]
              simp only [List.length_cons]
              rw [ih rest env' out' vs env'' out'' hrest]

/-- When the element loop succeeds, the argument-binding loop performs the
same evaluations and additionally folds the values into the call frame. -/
theorem eval_args_bind_of_items :
    ∀ (fuel : Nat) (args : List Expr) (params : List (String × Ty))
      (env F : Environment) (out : List String) (vals : List Value)
      (env₂ : Environment) (out₂ : List String),
      args.length = params.length →
      eval_items fuel args env out = some (.ok vals, env₂, out₂) →
      eval_args_bind fuel args params env F out =
        some (.ok (bind_params F params vals), env₂, out₂) := by
  intro fuel
  induction fuel with
  | zero =>
    intro args params env F out vals env₂ out₂ _ h
    exact absurd h (by simp [eval_items])
  | succ fuel ih =>
    intro args params env F out vals env₂ out₂ hlen h
    cases args with
    | nil =>
      simp only [eval_items, Option.some.injEq, Prod.mk.injEq, Except.ok.injEq] at h
      obtain ⟨h1, h2, h3⟩ := h
      subst h1
      subst h2
      subst h3
      cases params with
      | nil => rfl
      | cons p ps => simp at hlen
    | cons a rest =>
      cases params with
      | nil => simp at hlen
      | cons p ps =>
        rcases p with ⟨pname, pty⟩
        cases hev : evaluate_expr fuel a env out with
        | none => simp [eval_items, hev] at h
        | some r =>
          rcases r with ⟨r, env', out'⟩
          cases r with
          | error m => simp [eval_items, hev] at h
          | ok v =>
            simp only [eval_items, hev] at h
            cases hrest : eval_items fuel rest env' out' with
            | none => simp [hrest] at h
            | some r2 =>
              rcases r2 with ⟨r2, env'', out''⟩
              cases r2 with
              | error m => simp [hrest] at h
              | ok vs =>
                simp only [hrest, Option.some.injEq, Prod.mk.injEq, Except.ok.injEq] at h
                obtain ⟨h1, h2, h3⟩ := h
                subst h2
                subst h3
                rw [← h1]
                simp only [eval_args_bind, hev]
                rw [ih rest ps env' (F.define pname v) out' vs env'' out''
                  (by simpa using hlen) hrest]
                rfl

/-- C4: a function call that passes the arity check and evaluates its
arguments executes the callee's body in a freshly constructed environment
whose function map is exactly the caller's (copied before argument
evaluation; no expression can add a function binding) and whose variable map
holds nothing but the parameters, each bound positionally to its evaluated
argument value — no caller variable is visible in the frame. -/
theorem c4_fresh_call_frame (fuel : Nat) (name : String) (args : List Expr)
    (env : Environment) (out : List String) (fname : String)
    (params : List (String × Ty)) (rts : List Ty) (body : List Expr)
    (vals : List Value) (env₂ : Environment) (out₂ : List String)
    (hf : env.get_function name = some (.Function fname params rts body))
    (hnd : (env.functions.map Prod.fst).Nodup)
    (hlen : args.length = params.length)
    (hargs : eval_items fuel args env out = some (.ok vals, env₂, out₂)) :
    ∃ F : Environment,
      evaluate_expr (fuel + 1) (.FunctionCall name args) env out =
        (match exec_body fuel body F .Null out₂ with
         | none => none
         | some (.error m, _, out₃) => some (.error m, env₂, out₃)
         | some (.ok result, _, out₃) => some (.ok result, env₂, out₃)) ∧
      F.functions = env.functions ∧
      (∀ x, x ∉ params.map Prod.fst → F.get x = none) ∧
      ((params.map Prod.fst).Nodup →
        ∀ (i : Nat) (h : i < params.length),
          F.get ((params.get ⟨i, h⟩).1) = vals.get? i) := by
  have hcopy : copy_functions env.functions Environment.new =
      { vars := [], functions := env.functions } := by
    rw [copy_functions_spec env.functions Environment.new hnd (by intro k _; simp [Environment.new])]
    simp [Environment.new]
  refine ⟨bind_params (copy_functions env.functions Environment.new) params vals,
    ?_, ?_, ?_, ?_⟩
  · simp only [evaluate_expr, hf]
    rw [if_neg (not_not_intro hlen)]
    rw [eval_args_bind_of_items fuel args params env
      (copy_functions env.functions Environment.new) out vals env₂ out₂ hlen hargs]
  · rw [bind_params_functions, hcopy]
  · intro x hx
    rw [bind_params_get_not_mem params vals _ x hx, hcopy]
    rfl
  · intro hpnd i h
    have hvlen : params.length = vals.length := by
      have hv := eval_items_length fuel args env out vals env₂ out₂ hargs
      omega
    exact bind_params_get_pos params vals _ hpnd hvlen i h

/-- C4 witness: calling `f(7)` against `fun f(x: int)` builds a frame whose
function map is the caller's single binding and whose variable map binds
exactly `x` to `Int(7)`. -/
theorem c4_fresh_call_frame_witness :
    ∃ F : Environment,
      evaluate_expr 3 (.FunctionCall "f" [.IntLiteral 7])
          { vars := [("y", .Int 1)],
            functions := [("f", .Function "f" [("x", .Int)] [] [])] } [] =
        (match exec_body 2 ([] : List Expr) F .Null [] with
         | none => none
         | some (.error m, _, out₃) =>
           some (.error m,
             { vars := [("y", .Int 1)],
               functions := [("f", .Function "f" [("x", .Int)] [] [])] }, out₃)
         | some (.ok result, _, out₃) =>
           some (.ok result,
             { vars := [("y", .Int 1)],
               functions := [("f", .Function "f" [("x", .Int)] [] [])] }, out₃)) ∧
      F.functions = [("f", .Function "f" [("x", .Int)] [] [])] ∧
      (∀ x, x ∉ ([("x", Ty.Int)].map Prod.fst) → F.get x = none) ∧
      ((([("x", Ty.Int)].map Prod.fst)).Nodup →
        ∀ (i : Nat) (h : i < [("x", Ty.Int)].length),
          F.get (([("x", Ty.Int)].get ⟨i, h⟩).1) = [Value.Int 7].get? i) :=
  c4_fresh_call_frame 2 "f" [.IntLiteral 7]
    { vars := [("y", .Int 1)],
      functions := [("f", .Function "f" [("x", .Int)] [] [])] } []
    "f" [("x", .Int)] [] [] [.Int 7]
    { vars := [("y", .Int 1)],
      functions := [("f", .Function "f" [("x", .Int)] [] [])] } []
    rfl (by simp) rfl rfl


/-- A scanned run is never longer than the input. -/
theorem take_while_len_le (p : Char → Bool) : ∀ l : List Char, take_while_len p l ≤ l.length := by
  intro l
  induction l with
  | nil => exact Nat.le_refl 0
  | cons c t ih =>
    simp only [take_while_len, List.length_cons]
    by_cases h : p c
    · rw [if_pos h]; omega
    · rw [if_neg h]; omega

/-- A run of characters satisfying `p` followed by one that does not is
scanned in full and no further. -/
theorem take_while_len_append_false (p : Char → Bool) (body : List Char)
    (hb : ∀ c ∈ body, p c = true) (d : Char) (hd : p d = false) (l : List Char) :
    take_while_len p (body ++ d :: l) = body.length := by
  induction body with
  | nil => simp [take_while_len, hd]
  | cons c t ih =>
    simp only [List.cons_append, take_while_len, List.length_cons]
    rw [if_pos (hb c (List.mem_cons_self c t))]
    rw [show t.append (d :: l) = t ++ d :: l from rfl]
    rw [ih (fun c' hc' => hb c' (List.mem_cons_of_mem c hc'))]

/-- On a block comment whose body is `#`-free, the block-comment rule matches
the whole comment (the greedy `[^#]*` run is exactly the body, and the
closing `###` follows). -/
theorem match_multiline_closed (body : List Char) (hbody : ∀ c ∈ body, c ≠ '#') :
    match_multiline ('#' :: '#' :: '#' :: (body ++ ['#', '#', '#'])) =
      some (6 + body.length) := by
  have h0 : match_multiline ('#' :: '#' :: '#' :: (body ++ ['#', '#', '#'])) =
      (if List.isPrefixOf ['#', '#', '#']
          ((body ++ ['#', '#', '#']).drop
            (take_while_len (fun c => c != '#') (body ++ ['#', '#', '#']))) then
        some (6 + take_while_len (fun c => c != '#') (body ++ ['#', '#', '#']))
      else none) := rfl
  have h1 : take_while_len (fun c => c != '#') (body ++ ['#', '#', '#']) = body.length := by
    have := take_while_len_append_false (fun c => c != '#') body
      (fun c hc => by simp [hbody c hc]) '#' (by decide) ['#', '#']
    simpa using this
  have h2 : (body ++ ['#', '#', '#']).drop body.length = ['#', '#', '#'] :=
    List.drop_left body ['#', '#', '#']
  rw [h0, h1, h2]
  rfl

/-- On a `#`-free block comment, longest-match selection picks the
block-comment rule matching the whole input: every non-comment rule fails on
the leading `#`, and the line-comment rule's match (to the first newline) is
never longer than the block-comment rule's whole-input match, which also has
the higher priority on a tie. -/
theorem pick_block_comment (body : List Char) (hbody : ∀ c ∈ body, c ≠ '#') :
    pick ('#' :: '#' :: '#' :: (body ++ ['#', '#', '#'])) =
      some (6 + body.length, { matchLen := match_multiline, prio := 12, action := none }) := by
  have hml := match_multiline_closed body hbody
  unfold pick
  rw [← List.take_append_drop 53 rules, List.foldl_append]
  rw [show List.foldl (pick_step ('#' :: '#' :: '#' :: (body ++ ['#', '#', '#']))) none
      (List.take 53 rules) = none from rfl]
  rw [show List.drop 53 rules =
    [{ matchLen := match_comment, prio := 2, action := none },
     { matchLen := match_multiline, prio := 12, action := none },
     { matchLen := match_whitespace, prio := 1, action := none }] from rfl]
  simp only [List.foldl_cons, List.foldl_nil]
  rw [show pick_step ('#' :: '#' :: '#' :: (body ++ ['#', '#', '#'])) none
      { matchLen := match_comment, prio := 2, action := none } =
    some (1 + take_while_len (fun c => c != '\n') ('#' :: '#' :: (body ++ ['#', '#', '#'])),
      { matchLen := match_comment, prio := 2, action := none }) from rfl]
  have hstep : pick_step ('#' :: '#' :: '#' :: (body ++ ['#', '#', '#']))
      (some (1 + take_while_len (fun c => c != '\n') ('#' :: '#' :: (body ++ ['#', '#', '#'])),
        { matchLen := match_comment, prio := 2, action := none }))
      { matchLen := match_multiline, prio := 12, action := none } =
      some (6 + body.length, { matchLen := match_multiline, prio := 12, action := none }) := by
    simp only [pick_step, hml]
    have hb : 1 + take_while_len (fun c => c != '\n') ('#' :: '#' :: (body ++ ['#', '#', '#'])) ≤
        6 + body.length := by
      have := take_while_len_le (fun c => c != '\n') ('#' :: '#' :: (body ++ ['#', '#', '#']))
      simp only [List.length_cons, List.length_append, List.length_cons, List.length_nil] at this
      omega
    rcases Nat.lt_or_ge (1 + take_while_len (fun c => c != '\n')
        ('#' :: '#' :: (body ++ ['#', '#', '#']))) (6 + body.length) with hlt | hge
    · rw [if_pos (Or.inl hlt)]
    · have heq : 6 + body.length =
          1 + take_while_len (fun c => c != '\n') ('#' :: '#' :: (body ++ ['#', '#', '#'])) := by
        omega
      rw [if_pos (Or.inr ⟨heq, by decide⟩)]
  rw [hstep]
  rfl

/-- C6 amended: a block comment whose body contains no `#` character, standing
as the whole source, is discarded entirely: the lexer's longest match at its
opening is the block-comment rule and the output contains no token.  (The
claim's stronger form fails in two ways, shown by the counterexample: a body
containing `#` is not matched by the `###[^#]*###` rule and its text can leak
out as tokens, and the line-comment rule can swallow text after a closing
`###` on the same line.) -/
theorem c6_hash_free_block_comment_discarded (body : List Char)
    (hbody : ∀ c ∈ body, c ≠ '#') :
    tokenize (String.mk ('#' :: '#' :: '#' :: (body ++ ['#', '#', '#']))) = some (.ok []) := by
  unfold tokenize
  rw [show (String.mk ('#' :: '#' :: '#' :: (body ++ ['#', '#', '#']))).data =
    '#' :: '#' :: '#' :: (body ++ ['#', '#', '#']) from rfl]
  have hlen : ('#' :: '#' :: '#' :: (body ++ ['#', '#', '#'])).length = 6 + body.length := by
    simp only [List.length_cons, List.length_append, List.length_nil]
    omega
  rw [hlen]
  simp only [tokenize_loop]
  rw [pick_block_comment body hbody]
  simp only []
  rw [show ('#' :: '#' :: '#' :: (body ++ ['#', '#', '#'])).drop (6 + body.length) = [] from by
    rw [← hlen]; exact List.drop_length _]
  rw [show 6 + body.length = (5 + body.length) + 1 from by omega]
  rfl

/-- C6 amended witness: a multi-line `#`-free comment body. -/
theorem c6_hash_free_block_comment_discarded_witness :
    tokenize (String.mk ('#' :: '#' :: '#' ::
      (('\n' :: 'h' :: 'i' :: '\n' :: []) ++ ['#', '#', '#']))) = some (.ok []) :=
  c6_hash_free_block_comment_discarded ('\n' :: 'h' :: 'i' :: '\n' :: [])
    (by intro c hc; fin_cases hc <;> decide)


end Boba
